import Mathlib

/-!
Verification of the Complaint Triage & Dispatch Engine
(Tamil Nadu Service Management Portal backend).

This file gives a shallow embedding, in Lean 4, of the JavaScript core of the
engine and proves the behavioural properties stated in the specification:

* the keyword fallbacks of the classifier (priority, duplicate and fake
  detection) from utils/gemini.js,
* the cloud classifier gateway retry/cooldown discipline from utils/gemini.js,
* the image-to-department mapping from utils/vision.js,
* the complaint creation, load-balanced provider assignment, status lifecycle,
  and rating routes from routes/complaints.js and routes/provider.js.

JavaScript numbers that carry fractional weights are modelled as rationals
(their exact values: every constant involved is a dyadic rational, so the
floating point arithmetic of the source is exact on them); machine strings are
modelled as Lean strings restricted to the character operations that the
source actually performs (ASCII lower-casing, whitespace splitting,
substring search).
-/

namespace Blaze

/-! ## Stable sorting, as performed by JavaScript Array.prototype.sort

The source sorts arrays with numeric comparators such as
(a, b) => a.activeCount - b.activeCount.  Since ES2019 Array.prototype.sort is
required to be stable, the resulting order is exactly: ascending in the
comparator, elements comparing equal staying in their original order.  We
model this with insertion sort parameterised by a boolean relation r, where
r x y means that x, occurring before y in the input, may stay before y in the
output (for the ascending comparator above: x.activeCount ≤ y.activeCount). -/

/-- Insert x into l, placing it in front of the first element y with r x y;
with a reflexive total r this is the stable insertion step. -/
def insertStable (r : α → α → Bool) (x : α) : List α → List α
  | [] => [x]
  | y :: ys => if r x y then x :: y :: ys else y :: insertStable r x ys

/-- Stable sort by the relation r, modelling a stable JavaScript sort. -/
def sortStable (r : α → α → Bool) (l : List α) : List α :=
  l.foldr (insertStable r) []

/-- The element that a stable sort brings to the front: the first element of
the list that is r-related to every later chosen one. -/
def frontBest (r : α → α → Bool) (a : α) : List α → α
  | [] => a
  | b :: l => if r a (frontBest r b l) then a else frontBest r b l

/-! ## JavaScript string primitives used by the source -/

/-- Model of the JavaScript whitespace class used by trim and the regular
expression metacharacter backslash-s, restricted to the ASCII whitespace that
the complaint texts can contain. -/
def jsSpace (c : Char) : Bool :=
  c = ' ' || c = '\t' || c = '\n' || c = '\r' || c = '\x0b' || c = '\x0c'

/-- Model of String.prototype.trim: strip leading and trailing whitespace. -/
def jsTrimList (l : List Char) : List Char :=
  ((l.dropWhile jsSpace).reverse.dropWhile jsSpace).reverse

def jsTrim (s : String) : String :=
  String.mk (jsTrimList s.toList)

/-- Model of String.prototype.toLowerCase, for the ASCII texts at hand. -/
def jsLower (s : String) : String :=
  String.mk (s.toList.map Char.toLower)

/-- Model of String.prototype.includes: substring containment. -/
def jsIncludes (s sub : String) : Bool :=
  decide (sub.toList <:+: s.toList)

/-- Model of Math.round for the nonnegative rationals produced by the source:
round half away from zero equals floor of q + 1/2 on nonnegative input. -/
def jsRound (q : ℚ) : ℤ :=
  ⌊q + 1 / 2⌋

/-! ## utils/gemini.js — word extraction and similarity -/

/-- Character class [a-z0-9], the characters kept by the word-extraction
regular expression after lower-casing. -/
def isLowerAlnum (c : Char) : Bool :=
  (decide ('a' ≤ c) && decide (c ≤ 'z')) || (decide ('0' ≤ c) && decide (c ≤ '9'))

/-- Model of getWords: lower-case the text, delete every character that is not
[a-z0-9] or whitespace, split on whitespace, and keep tokens longer than two
characters. -/
def getWordsList (l : List Char) : List String :=
  let cleaned := (l.map Char.toLower).filter (fun c => isLowerAlnum c || jsSpace c)
  ((cleaned.splitOnP jsSpace).map String.mk).filter (fun w => 2 < w.length)

def getWords (s : String) : List String :=
  getWordsList s.toList

/-- Model of jaccardSimilarity: intersection size over union size of the two
word sets, zero when the union is empty. -/
def jaccardSimilarity (a b : List String) : ℚ :=
  let interCard := (a.dedup.filter (fun w => decide (w ∈ b))).length
  let unionCard := (a ++ b).dedup.length
  if unionCard = 0 then 0 else (interCard : ℚ) / (unionCard : ℚ)

/-- The KNOWN_WORDS constant: common English plus complaint-related words. -/
def knownWordsSet : List String := [
  "the", "and", "for", "are", "but", "not", "you", "all", "can", "had", "her", "was", "one",
  "our", "out", "has", "his", "how", "its", "may", "who", "did", "get", "new", "now", "old",
  "see", "way", "day", "too", "any", "been", "from", "have", "here", "just", "like", "long",
  "make", "many", "more", "only", "over", "such", "take", "than", "them", "then", "very",
  "when", "come", "could", "into", "made", "after", "back", "also", "with", "this", "that",
  "they", "what", "will", "about", "there", "their", "which", "would", "other", "these",
  "some", "time", "being", "does", "where", "before", "between", "each", "even", "much",
  "most", "same", "still", "should", "through", "while", "under", "never", "every", "since",
  "need", "help", "please", "because", "near", "facing", "causing", "people", "daily",
  "road", "water", "street", "light", "area", "working", "broken", "damage", "damaged",
  "pipe", "pipeline", "drain", "drainage", "block", "blocked", "garbage", "bus", "power",
  "electricity", "supply", "issue", "problem", "repair", "fix", "fixed", "days", "weeks",
  "months", "public", "health", "safety", "danger", "dangerous", "flood", "flooded",
  "sewage", "pothole", "pavement", "footpath", "bridge", "building", "house", "school",
  "hospital", "temple", "church", "mosque", "park", "garden", "traffic", "signal",
  "lamp", "pole", "wire", "cable", "tank", "well", "bore", "motor", "pump", "valve",
  "meter", "bill", "connection", "complaint", "department", "office", "officer",
  "collector", "corporation", "municipality", "panchayat", "ward", "zone", "district",
  "village", "town", "city", "nagar", "colony", "layout", "main", "cross", "junction",
  "corner", "side", "front", "behind", "opposite", "next", "above", "below",
  "morning", "evening", "night", "today", "yesterday", "week", "month", "year",
  "leaking", "overflowing", "stagnant", "contaminated", "polluted", "dirty", "clean",
  "mosquito", "insects", "smell", "stench", "noise", "dust", "smoke", "illegal",
  "construction", "encroachment", "parking", "speed", "accident", "fallen", "tree",
  "branch", "fence", "wall", "gate", "roof", "floor", "ceiling", "window", "door",
  "transformer", "generator", "inverter", "streetlight", "manhole", "cover",
  "cracked", "collapse", "collapsed", "sinking", "eroded", "erosion", "landslide",
  "request", "suggestion", "improvement", "install", "installation", "upgrade"]

/-- Model of isKnownWord: membership in KNOWN_WORDS, or length at least six
(long words are presumed real). -/
def isKnownWord (w : String) : Bool :=
  knownWordsSet.contains w || decide (6 ≤ w.length)

/-- Line terminators that the regular expression dot does not match. -/
def isLineTerm (c : Char) : Bool :=
  c = '\n' || c = '\r' || c = Char.ofNat 0x2028 || c = Char.ofNat 0x2029

/-- Model of the test of the regular expression (.)backref{4,}: some non-line-
terminator character occurs five or more times consecutively. -/
def hasRepeat5 : List Char → Bool
  | [] => false
  | c :: rest =>
    (!isLineTerm c && (rest.take 4 == List.replicate 4 c)) || hasRepeat5 rest

/-- The alternatives of the keyboard-mashing regular expression, in the order
in which the alternation tries them. -/
def keyboardAlternatives : List (List Char) :=
  [['a','s','d','f'], ['q','w','e','r','t'], ['z','x','c','v'], ['h','j','k','l'],
   ['u','i','o','p'], ['b','n','m'], ['w','a','s','d'], ['j','k','l'], ['f','g','h']]

/-- Fuelled scan counting the global matches of an alternation regular
expression: scan left to right; at each position try the alternatives in
order; on a match count it and resume after its end, otherwise advance one
character.  The fuel only bounds the recursion; every step consumes at least
one character, so fuel equal to the text length is always enough. -/
def countAltFuel (pats : List (List Char)) : ℕ → List Char → ℕ
  | 0, _ => 0
  | _, [] => 0
  | fuel + 1, c :: rest =>
    match pats.find? (fun p => p.isPrefixOf (c :: rest)) with
    | some p => 1 + countAltFuel pats fuel (rest.drop (p.length - 1))
    | none => countAltFuel pats fuel rest

/-- Number of global matches of the alternation in the text. -/
def countAltMatches (pats : List (List Char)) (l : List Char) : ℕ :=
  countAltFuel pats l.length l

/-- Result record of the duplicate and fake detection. -/
structure DupResult where
  isDuplicate : Bool
  duplicateOf : Option String
  isFake : Bool
  remarks : String
deriving Repr, DecidableEq

/-- An existing complaint as passed to the detector (the fields the creation
route selects: ticketId, description, area, status). -/
structure CandidateC where
  ticketId : String
  description : String
  area : String
  status : String
deriving Repr, DecidableEq

/-- The fake-detection phase of localDetectDuplicateOrFake: the ordered checks
of the source, each early return modelled as returning its remark. -/
def fakeCheck (description : String) : Option String :=
  let text := jsTrim description
  if text.length < 10 then
    some "Description too short to be a valid complaint"
  else
    let words := getWords text
    if words.length = 0 then
      some "No meaningful words found in description"
    else if hasRepeat5 text.toList then
      some "Description contains repeated character patterns (spam)"
    else
      let knownCount := (words.filter isKnownWord).length
      let knownRatio : ℚ := (knownCount : ℚ) / (words.length : ℚ)
      if knownRatio < 3 / 10 ∧ 3 ≤ words.length then
        some ("Description appears to be gibberish (only " ++
          toString (jsRound (knownRatio * 100)) ++ "% recognizable words)")
      else if 2 ≤ countAltMatches keyboardAlternatives (jsLower text).toList then
        some "Description appears to be keyboard-mashing / random input"
      else if words.dedup.length = 1 ∧ 2 < words.length then
        some "Description is just the same word repeated"
      else
        none

/-- One step of the duplicate-scan loop: skip candidates in another area,
keep a strictly better similarity together with the complaint achieving it. -/
def scanStep (newWords : List String) (area : String) (acc : Option CandidateC × ℚ)
    (e : CandidateC) : Option CandidateC × ℚ :=
  if e.area ≠ area then acc
  else
    let sim := jaccardSimilarity newWords (getWords e.description)
    if acc.2 < sim then (some e, sim) else acc

/-- The duplicate-scan loop of localDetectDuplicateOrFake: fold over the
existing complaints, skipping other areas, keeping the strictly best
similarity seen so far and the complaint achieving it. -/
def scanBest (newWords : List String) (area : String) (existing : List CandidateC) :
    Option CandidateC × ℚ :=
  existing.foldl (scanStep newWords area) (none, 0)

/-- Model of localDetectDuplicateOrFake: fake checks first (short-circuit),
then the same-area duplicate scan with the 0.6 threshold. -/
def localDetectDuplicateOrFake (description department area : String)
    (existing : List CandidateC) : DupResult :=
  match fakeCheck description with
  | some r => ⟨false, none, true, r⟩
  | none =>
    let newWords := getWords description
    let best := scanBest newWords area existing
    if 6 / 10 ≤ best.2 then
      match best.1 with
      | some m =>
        ⟨true, some m.ticketId, false,
          toString (jsRound (best.2 * 100)) ++ "% similar to existing complaint " ++ m.ticketId⟩
      | none => ⟨false, none, false, "Complaint appears valid and unique"⟩
    else ⟨false, none, false, "Complaint appears valid and unique"⟩

/-! ## utils/gemini.js — keyword priority fallback -/

def criticalKeywords : List String := [
  "flood", "fire", "collapse", "collapsed", "accident", "danger", "dangerous",
  "emergency", "fallen", "burst", "explosion", "electrocution", "death", "dead",
  "drowning", "sinkhole", "gas leak", "building crack", "bridge damage",
  "short circuit", "live wire", "exposed wire", "water contamination",
  "epidemic", "outbreak", "major damage", "life threatening", "critical",
  "fallen tree", "road cave", "wall collapse", "roof collapse", "sewage overflow"]

def highKeywords : List String := [
  "broken", "pothole", "leak", "leaking", "sewage", "blocked", "damaged",
  "contaminated", "overflow", "overflowing", "no water", "no electricity",
  "power cut", "power outage", "blackout", "road damage", "crack", "cracked",
  "waterlogging", "stagnant water", "mosquito", "garbage pile", "dump",
  "illegal dumping", "unsafe", "hazard", "risk", "urgent",
  "no supply", "pipeline break", "main road", "highway", "bus breakdown",
  "traffic signal", "drainage block", "manhole open", "missing cover"]

def mediumKeywords : List String := [
  "not working", "malfunction", "delayed", "dirty", "slow", "complaint",
  "issue", "problem", "repair", "maintenance", "streetlight", "lamp",
  "footpath", "pavement", "speed breaker", "signal", "noise", "dust",
  "irregular", "faulty", "poor condition", "needs attention", "overdue",
  "pending", "unresolved", "partially", "intermittent", "sometimes"]

def lowKeywords : List String := [
  "request", "suggestion", "new", "improvement", "inquiry", "information",
  "feedback", "install", "installation", "propose", "plan", "future",
  "beautification", "painting", "garden", "park", "bench", "sign board",
  "name board", "bus stop", "shelter", "upgrade", "enhance", "minor"]

/-- Accumulate weight w for every keyword of the list occurring as a substring
of the text, as the keyword loop of localPrioritize does. -/
def scoreKeywords (text : String) (keywords : List String) (w : ℚ) : ℚ :=
  keywords.foldl (fun s kw => if jsIncludes text kw then s + w else s) 0

/-- The department boost table of localPrioritize. -/
def deptBoost (department : String) : ℚ :=
  if department = "Electricity" then 1
  else if department = "Water Resources" then 1
  else if department = "Public Health" then 1
  else if department = "Roads & Highways" then 1 / 2
  else 0

/-- Model of localPrioritize: keyword scores with weights 3/2/1/1 over the
lower-cased concatenation of description and department, department boosts to
Critical and High, then a stable descending sort of the four entries and the
top entry if its score is positive, else Medium. -/
def localPrioritize (description department : String) : String :=
  let text := jsLower (description ++ " " ++ department)
  let sC := scoreKeywords text criticalKeywords 3 + deptBoost department
  let sH := scoreKeywords text highKeywords 2 + deptBoost department * (1 / 2)
  let sM := scoreKeywords text mediumKeywords 1
  let sL := scoreKeywords text lowKeywords 1
  let entries : List (String × ℚ) := [("Critical", sC), ("High", sH), ("Medium", sM), ("Low", sL)]
  let sorted := sortStable (fun x y => decide (y.2 ≤ x.2)) entries
  match sorted.head? with
  | some top => if 0 < top.2 then top.1 else "Medium"
  | none => "Medium"

/-! ## Data model — the Complaint and User documents

Statuses, priorities and departments are strings, exactly as the Mongoose
schema and the route code handle them.  ObjectIds are modelled as naturals.
Optional string fields whose absence the source tests with JavaScript
truthiness are modelled as Option String, with none standing for both the
absent and the empty value. -/

structure StatusEvent where
  status : String
  timestamp : ℕ
  updatedBy : Option ℕ
  updatedByName : String
  note : String
deriving Repr, DecidableEq

structure Complaint where
  id : ℕ
  ticketId : String
  userId : ℕ
  userName : String
  userEmail : String
  area : String
  address : String
  department : String
  description : String
  photo : String
  priority : String
  status : String
  isDuplicate : Bool
  duplicateOf : Option String
  isFake : Bool
  aiRemarks : String
  assignedTo : Option ℕ
  assignedToName : Option String
  resolution : Option String
  statusHistory : List StatusEvent
  rating : Option ℕ
  feedback : Option String
deriving Repr, DecidableEq

structure UserT where
  id : ℕ
  name : String
  email : String
  role : String
  department : String
deriving Repr, DecidableEq

/-! ## routes/provider.js — the lifecycle state machine -/

/-- The validTransitions table of the status-update route. -/
def validTransitions (s : String) : Option (List String) :=
  if s = "Registered" then some ["Accepted", "Rejected"]
  else if s = "Accepted" then some ["Working On", "Rejected"]
  else if s = "Working On" then some ["Completed"]
  else if s = "Completed" then some []
  else if s = "Rejected" then some []
  else none

/-- The allowed-target list: validTransitions[status] || []. -/
def allowedTargets (s : String) : List String :=
  (validTransitions s).getD []

/-- The statuses counting as an active job for the capacity check. -/
def activeStatuses : List String := ["Accepted", "Working On"]

/-- The refusal message of an illegal transition, naming the attempted and the
allowed transitions (allowed.join(", ") || "none"). -/
def transitionErrorMsg (cur target : String) (allowed : List String) : String :=
  "Cannot change status from \"" ++ cur ++ "\" to \"" ++ target ++ "\". Allowed: " ++
    (if allowed.isEmpty then "none" else String.intercalate ", " allowed)

def capacityErrorMsg : String :=
  "You already have an active complaint. Please complete it before accepting a new one."

/-- The capacity query: number of complaints assigned to the user with an
active status, excluding the complaint being updated. -/
def countOtherActive (db : List Complaint) (uid cid : ℕ) : ℕ :=
  db.countP (fun c =>
    (c.assignedTo == some uid) && activeStatuses.contains c.status && (c.id != cid))

/-- Outcome of a mutating route: an HTTP error (status code and message) or
the updated complaint document. -/
inductive RouteResult where
  | err (code : ℕ) (msg : String)
  | ok (c : Complaint)
deriving Repr, DecidableEq

/-- The document update performed by an accepted transition: cached status,
assignment to the acting provider, optional resolution, and one StatusEvent
appended to the history. -/
def applyTransition (c : Complaint) (user : UserT) (target : String)
    (resolution : Option String) (now : ℕ) : Complaint :=
  { c with
    status := target
    assignedTo := some user.id
    assignedToName := some user.name
    resolution := match resolution with | some r => some r | none => c.resolution
    statusHistory := c.statusHistory ++
      [⟨target, now, some user.id, user.name,
        resolution.getD ("Status updated to " ++ target)⟩] }

/-- Model of PUT /complaints/:id (provider status update): find the complaint,
check the department, check the transition table, on a transition into
Accepted check the provider capacity, then update and save.  Every refusal
path returns the store unchanged, as the route returns before any write. -/
def updateStatus (db : List Complaint) (user : UserT) (cid : ℕ) (target : String)
    (resolution : Option String) (now : ℕ) : RouteResult × List Complaint :=
  match db.find? (fun c => c.id == cid) with
  | none => (.err 404 "Complaint not found", db)
  | some c =>
    if c.department ≠ user.department then
      (.err 403 "Not authorized for this department", db)
    else
      let allowed := allowedTargets c.status
      if ¬ allowed.contains target then
        (.err 400 (transitionErrorMsg c.status target allowed), db)
      else if target = "Accepted" ∧ 0 < countOtherActive db user.id c.id then
        (.err 400 capacityErrorMsg, db)
      else
        let c' := applyTransition c user target resolution now
        (.ok c', db.map (fun x => if x.id == c.id then c' else x))

/-- Model of PUT /:id/rate: rating range, ownership, Completed-only,
rate-once. -/
def rateComplaint (db : List Complaint) (user : UserT) (cid : ℕ) (rating : ℕ)
    (feedback : Option String) : RouteResult × List Complaint :=
  if rating < 1 ∨ 5 < rating then
    (.err 400 "Rating must be between 1 and 5", db)
  else
    match db.find? (fun c => c.id == cid) with
    | none => (.err 404 "Complaint not found", db)
    | some c =>
      if c.userId ≠ user.id then
        (.err 403 "You can only rate your own complaints", db)
      else if c.status ≠ "Completed" then
        (.err 400 "Can only rate completed complaints", db)
      else if c.rating.isSome then
        (.err 400 "You have already rated this complaint", db)
      else
        let c' := { c with rating := some rating, feedback := some (feedback.getD "") }
        (.ok c', db.map (fun x => if x.id == c.id then c' else x))

/-! ## routes/complaints.js — load-balanced provider assignment -/

/-- A provider's active load: assigned complaints in a non-terminal status,
the aggregation of assignProviderForDepartment. -/
def activeLoad (db : List Complaint) (pid : ℕ) : ℕ :=
  db.countP (fun c =>
    (c.assignedTo == some pid) &&
      ["Registered", "Accepted", "Working On"].contains c.status)

/-- Model of assignProviderForDepartment: list the providers of the
department, attach active loads, sort ascending by load (stable), and choose
the first zero-load provider if any, else the first of the sorted list. -/
def assignProviderForDepartment (users : List UserT) (db : List Complaint)
    (department : String) : Option UserT :=
  let providers := users.filter (fun u => u.role == "provider" && u.department == department)
  if providers.isEmpty then none
  else
    let providerLoads := providers.map (fun p => (p, activeLoad db p.id))
    let sorted := sortStable (fun x y => decide (x.2 ≤ y.2)) providerLoads
    let freeProvider := sorted.find? (fun p => p.2 == 0)
    match freeProvider with
    | some p => some p.1
    | none => sorted.head?.map (fun p => p.1)

/-! ## routes/complaints.js — complaint creation

The route is modelled from the point where the request has been parsed: the
effectful collaborators (reverse geocoding, vision department detection, the
duplicate/fake verdict, the priority result, and the generated ticket id) are
parameters, and the load balancer is a function parameter so that independence
from it can be stated. -/

/-- Model of POST / (create complaint): required photo and description,
fallback area, fake rejection, duplicate handling, provider assignment and
the initial System status event. -/
def createComplaint (user : UserT) (photo description area? address? : Option String)
    (department : String) (dupCheck : DupResult) (priority : String)
    (ticketId : String) (balancer : String → Option UserT) (now newId : ℕ) :
    RouteResult :=
  match photo with
  | none => .err 400 "Photo is required. Please take a live photo."
  | some ph =>
    match description with
    | none => .err 400 "Description is required."
    | some desc =>
      let area := area?.getD "Unknown"
      if dupCheck.isFake then
        .err 400 ("This complaint appears to be invalid or fake. AI Remarks: " ++
          dupCheck.remarks)
      else
        let isRejected := dupCheck.isDuplicate
        let assignedProvider := if isRejected then none else balancer department
        .ok {
          id := newId
          ticketId := ticketId
          userId := user.id
          userName := user.name
          userEmail := user.email
          area := area
          address := address?.getD ""
          department := department
          description := desc
          photo := ph
          priority := priority
          status := if isRejected then "Rejected" else "Registered"
          isDuplicate := dupCheck.isDuplicate
          duplicateOf := dupCheck.duplicateOf
          isFake := false
          aiRemarks := dupCheck.remarks
          assignedTo := assignedProvider.map (fun p => p.id)
          assignedToName := assignedProvider.map (fun p => p.name)
          resolution := none
          statusHistory := [⟨if isRejected then "Rejected" else "Registered", now, none, "System",
            if isRejected then "Flagged as duplicate of " ++ (dupCheck.duplicateOf.getD "null")
            else "Complaint registered successfully"⟩]
          rating := none
          feedback := none }

/-! ## utils/gemini.js — the cloud classifier gateway callAI

The remote endpoint is a parameter: an oracle mapping (model index, attempt
index) to the outcome of that request.  The function result is the returned
text (or none), the new value of the cloudDisabledUntil timestamp, and the
trace of (model, attempt) network requests actually issued, in order. -/

/-- Outcome of one network request: a response body, or a thrown error with an
HTTP status. -/
inductive CallOutcome where
  | ok (text : Option String)
  | err (status : ℕ)
deriving Repr, DecidableEq

def maxRetries : ℕ := 1

def cloudCooldownMs : ℕ := 5 * 60 * 1000

/-- The trim-and-falsy handling of a successful response body:
text || null after trimming. -/
def normalizeResp (t : Option String) : Option String :=
  match t with
  | none => none
  | some s => if jsTrim s = "" then none else some (jsTrim s)

/-- Result of the per-model retry loop: an early return (with the new
cooldown timestamp), or fall through to the next model. -/
inductive AttemptStep where
  | finished (res : Option String) (cooldownAfter : ℕ)
  | nextModel
deriving Repr, DecidableEq

/-- The inner retry loop of callAI for one model: on success return the text
and reset the cooldown; on 401/403 return null and set the cooldown; on 429
break to the next model; on any other error retry while attempts remain. -/
def tryAttempts (oracle : ℕ → ℕ → CallOutcome) (now m : ℕ) :
    (a : ℕ) → (left : ℕ) → AttemptStep × List (ℕ × ℕ)
  | _, 0 => (.nextModel, [])
  | a, left + 1 =>
    match oracle m a with
    | .ok t => (.finished (normalizeResp t) 0, [(m, a)])
    | .err s =>
      if s = 401 ∨ s = 403 then (.finished none (now + cloudCooldownMs), [(m, a)])
      else if s = 429 then (.nextModel, [(m, a)])
      else
        let r := tryAttempts oracle now m (a + 1) left
        (r.1, (m, a) :: r.2)

/-- The outer loop of callAI over the ordered model list. -/
def modelsLoop (oracle : ℕ → ℕ → CallOutcome) (now disabledUntil : ℕ) :
    List ℕ → Option String × ℕ × List (ℕ × ℕ)
  | [] => (none, disabledUntil, [])
  | m :: ms =>
    match tryAttempts oracle now m 0 (maxRetries + 1) with
    | (.finished r cd, tr) => (r, cd, tr)
    | (.nextModel, tr) =>
      let rest := modelsLoop oracle now disabledUntil ms
      (rest.1, rest.2.1, tr ++ rest.2.2)

/-- Model of callAI: skip entirely during the cooldown window, else run the
model fallback list [primary, fallback] (indices 0 and 1). -/
def callAI (oracle : ℕ → ℕ → CallOutcome) (now disabledUntil : ℕ) :
    Option String × ℕ × List (ℕ × ℕ) :=
  if now < disabledUntil then (none, disabledUntil, [])
  else modelsLoop oracle now disabledUntil [0, 1]

/-! ## utils/vision.js — department detection from image evidence -/

/-- One piece of visual evidence with its confidence score. -/
structure VTerm where
  term : String
  score : ℚ
deriving Repr, DecidableEq

/-- The vision-analysis output consumed by mapToDepartment. -/
structure VisionResults where
  labels : List VTerm
  objects : List VTerm
  webEntities : List VTerm
  detectedText : String
  source : String
  directDepartment : Option String
  directReason : Option String
deriving Repr

/-- The DEPARTMENT_KEYWORDS table: department name, keyword list, weight. -/
def deptConfigs : List (String × List String × ℚ) := [
  ("Water Resources", ([
    "water", "pipe", "pipeline", "flood", "flooding", "drain", "drainage",
    "sewage", "sewer", "leak", "leaking", "plumbing", "tap", "faucet",
    "water supply", "borewell", "well", "tank", "overhead tank", "pump",
    "waterlogging", "stagnant water", "canal", "river", "pond", "reservoir",
    "water contamination", "dirty water", "water body", "puddle", "swimming pool",
    "moisture", "wet", "liquid", "fluid", "sprinkler", "hydrant", "valve",
    "water pipe", "water tank", "water damage", "water overflow"], 1)),
  ("Electricity", ([
    "electric", "electricity", "wire", "wiring", "cable", "power line",
    "transformer", "pole", "power pole", "utility pole", "streetlight",
    "street light", "lamp", "lamp post", "bulb", "light", "lighting",
    "electric pole", "power outage", "blackout", "short circuit",
    "electrical", "voltage", "current", "generator", "inverter",
    "circuit breaker", "meter", "electric meter", "fuse", "switch",
    "overhead line", "high tension", "conductor", "insulator",
    "power grid", "substation", "energy", "neon", "fluorescent",
    "led", "electrical equipment", "power supply", "electric line"], 1)),
  ("Roads & Highways", ([
    "road", "highway", "pothole", "crack", "asphalt", "pavement",
    "footpath", "sidewalk", "bridge", "flyover", "overpass", "underpass",
    "speed breaker", "speed bump", "divider", "median", "curb",
    "road damage", "road construction", "tar", "concrete", "gravel",
    "lane", "intersection", "junction", "roundabout", "road sign",
    "traffic sign", "barricade", "guardrail", "railing", "manhole",
    "road surface", "street", "avenue", "boulevard", "path", "trail",
    "cobblestone", "bitumen", "roadwork", "paving", "road marking",
    "zebra crossing", "crosswalk", "pedestrian", "roadway", "infrastructure"], 1)),
  ("Sanitation", ([
    "garbage", "trash", "waste", "dump", "litter", "debris", "rubbish",
    "dustbin", "bin", "dumpster", "compost", "recycling", "junk",
    "pollution", "dirty", "filth", "mess", "unhygienic", "unsanitary",
    "toilet", "restroom", "latrine", "sewage", "sanitation",
    "cleaning", "sweeping", "disposal", "waste management",
    "plastic", "plastic waste", "polythene", "bottle", "cans",
    "food waste", "organic waste", "landfill", "decomposition",
    "stench", "smell", "odor", "foul smell", "rot", "rotten",
    "contamination", "hazardous waste", "biomedical waste"], 1)),
  ("Public Health", ([
    "hospital", "clinic", "medical", "health", "disease", "infection",
    "mosquito", "pest", "insect", "rat", "rodent", "cockroach",
    "dengue", "malaria", "epidemic", "pandemic", "vaccination",
    "medicine", "pharmacy", "doctor", "nurse", "patient",
    "ambulance", "emergency", "first aid", "health hazard",
    "contamination", "polluted", "toxic", "chemical", "smoke",
    "air pollution", "respiratory", "safety", "biohazard",
    "stagnant", "breeding ground", "larvae", "fly", "flies",
    "public health", "hygiene", "disinfection", "sanitizer"], 1)),
  ("Education", ([
    "school", "college", "university", "classroom", "education",
    "student", "teacher", "blackboard", "whiteboard", "desk",
    "chair", "bench", "library", "book", "notebook", "stationery",
    "playground", "campus", "laboratory", "computer lab",
    "hostel", "canteen", "auditorium", "sports", "academic",
    "tuition", "exam", "scholarship", "learning"], 8 / 10)),
  ("Transport", ([
    "bus", "bus stop", "bus stand", "bus station", "bus shelter",
    "traffic", "traffic light", "traffic signal", "traffic jam",
    "vehicle", "car", "truck", "auto", "rickshaw", "train",
    "railway", "metro", "station", "platform", "parking",
    "accident", "collision", "transport", "transportation",
    "commute", "transit", "route", "highway", "signal",
    "pedestrian crossing", "overloaded", "public transport"], 9 / 10)),
  ("Revenue", ([
    "land", "property", "boundary", "survey", "deed", "title",
    "encroachment", "illegal construction", "demolition",
    "tax", "revenue", "registration", "document", "certificate",
    "patta", "chitta", "adangal", "land record", "measurement"], 7 / 10)),
  ("Agriculture", ([
    "farm", "crop", "field", "agriculture", "farming", "harvest",
    "irrigation", "fertilizer", "pesticide", "soil", "seed",
    "tractor", "plowing", "cattle", "livestock", "poultry",
    "paddy", "rice", "wheat", "vegetable", "fruit", "garden",
    "horticulture", "plantation", "orchard", "greenhouse",
    "drought", "pest attack", "crop damage", "agricultural land"], 8 / 10))]

def validDepartments : List String :=
  deptConfigs.map (fun c => c.1) ++ ["General"]

/-- One entry of the combined allTerms array: evidence term, score, and the
per-source multiplier (labels 1.2, objects 1.0, web entities 0.8). -/
structure ScoredTerm where
  term : String
  score : ℚ
  mult : ℚ
deriving Repr, DecidableEq

/-- The allTerms array of mapToDepartment; a web entity score of 0 is falsy
and replaced by 0.5, as in w.score || 0.5. -/
def allTermsOf (vr : VisionResults) : List ScoredTerm :=
  vr.labels.map (fun l => ⟨l.term, l.score, 12 / 10⟩) ++
    vr.objects.map (fun o => ⟨o.term, o.score, 1⟩) ++
    vr.webEntities.map (fun w => ⟨w.term, if w.score = 0 then 1 / 2 else w.score, 8 / 10⟩)

/-- The score one department accumulates: every (term, keyword) pair matching
by substring containment in either direction contributes
score x weight x multiplier, and every keyword found in the on-image text
contributes 0.5 x weight. -/
def deptScore (vr : VisionResults) (keywords : List String) (weight : ℚ) : ℚ :=
  (allTermsOf vr).foldl (fun s it =>
    keywords.foldl (fun s2 kw =>
      if jsIncludes it.term kw || jsIncludes kw it.term then
        s2 + it.score * weight * it.mult
      else s2) s) 0
  + (if vr.detectedText ≠ "" then
      keywords.foldl (fun s kw =>
        if jsIncludes vr.detectedText kw then s + 1 / 2 * weight else s) 0
    else 0)

/-- The matchedKeywords bookkeeping of mapToDepartment for one department:
keywords in order of first match over the evidence terms, then the on-image
text matches prefixed with "text:". -/
def matchedKw (vr : VisionResults) (keywords : List String) : List String :=
  let base := (allTermsOf vr).foldl (fun acc it =>
    keywords.foldl (fun acc2 kw =>
      if (jsIncludes it.term kw || jsIncludes kw it.term) && !acc2.contains kw then
        acc2 ++ [kw]
      else acc2) acc) []
  if vr.detectedText ≠ "" then
    keywords.foldl (fun acc kw =>
      if jsIncludes vr.detectedText kw && !acc.contains kw then
        acc ++ ["text:" ++ kw]
      else acc) base
  else base

/-- The per-department score list, in enumeration order. -/
def deptScores (vr : VisionResults) : List (String × ℚ) :=
  deptConfigs.map (fun cfg => (cfg.1, deptScore vr cfg.2.1 cfg.2.2))

/-- Result record of the department detection. -/
structure DeptResult where
  department : String
  confidence : ℤ
  detectedLabels : List String
  reason : String
deriving Repr, DecidableEq

/-- The direct-guess validation of mapToDepartment: a department returned by
the vision fallback model, accepted only when the source is the fallback
model and the guess matches a valid department case-insensitively. -/
def directMatch (vr : VisionResults) : Option String :=
  match vr.directDepartment with
  | some dd =>
    if vr.source = "openrouter-vision" then
      validDepartments.find? (fun d => jsLower d == jsLower dd)
    else none
  | none => none

/-- Sort the department scores descending (stable) and keep the positive
ones, as mapToDepartment does before ranking. -/
def positiveSorted (scores : List (String × ℚ)) : List (String × ℚ) :=
  (sortStable (fun x y => decide (y.2 ≤ x.2)) scores).filter (fun p => decide (0 < p.2))

/-- Model of mapToDepartment: validate a direct department guess from the
vision fallback model (fixed confidence 85); otherwise score every
department, sort descending (stable), drop non-positive scores, and return
General with confidence 0 when nothing is left, else the top department with
confidence min(round(topScore / totalScore x 100), 99). -/
def mapToDepartment (vr : VisionResults) : DeptResult :=
  match directMatch vr with
  | some m =>
    ⟨m, 85, (vr.labels.take 8).map (fun l => l.term),
      vr.directReason.getD ("AI vision detected: " ++ m)⟩
  | none =>
    match positiveSorted (deptScores vr) with
    | [] =>
      ⟨"General", 0, (vr.labels.take 8).map (fun l => l.term),
        "Could not match image to a specific department"⟩
    | top :: rest =>
      let totalScore := ((top :: rest).map (fun p => p.2)).sum
      let confidence : ℤ :=
        if 0 < totalScore then min (jsRound (top.2 / totalScore * 100)) 99 else 0
      let kws := ((deptConfigs.find? (fun c => c.1 == top.1)).map (fun c => c.2.1)).getD []
      ⟨top.1, confidence, (vr.labels.take 8).map (fun l => l.term),
        "Detected: " ++ String.intercalate ", " ((matchedKw vr kws).take 5)⟩

/-! ## Specification-side definitions

These definitions restate, in the specification's own terms, the quantities
that the claims are about; the theorems below relate them to the embedded
source functions. -/

/-- Fake condition (spec): description shorter than 10 characters (the source
applies the check to the trimmed text). -/
def fakeCondShort (d : String) : Prop :=
  (jsTrim d).length < 10

/-- Fake condition (spec): zero extractable words. -/
def fakeCondNoWords (d : String) : Prop :=
  getWords (jsTrim d) = []

/-- Fake condition (spec): a single character repeated five or more times
consecutively. -/
def fakeCondRepeat (d : String) : Prop :=
  hasRepeat5 (jsTrim d).toList = true

/-- Fake condition (spec): fewer than 30 percent recognizable words when the
description has three or more words. -/
def fakeCondGibberish (d : String) : Prop :=
  3 ≤ (getWords (jsTrim d)).length ∧
    (((getWords (jsTrim d)).filter isKnownWord).length : ℚ) / ((getWords (jsTrim d)).length : ℚ)
      < 3 / 10

/-- Fake condition (spec): two or more keyboard-mashing pattern matches. -/
def fakeCondKeyboard (d : String) : Prop :=
  2 ≤ countAltMatches keyboardAlternatives (jsLower (jsTrim d)).toList

/-- Fake condition (spec): one unique word repeated more than twice. -/
def fakeCondOneWord (d : String) : Prop :=
  (getWords (jsTrim d)).dedup.length = 1 ∧ 2 < (getWords (jsTrim d)).length

/-- Any of the six fake conditions. -/
def fakeCondAny (d : String) : Prop :=
  fakeCondShort d ∨ fakeCondNoWords d ∨ fakeCondRepeat d ∨ fakeCondGibberish d ∨
    fakeCondKeyboard d ∨ fakeCondOneWord d

/-- The maximum Jaccard similarity between the new word set and any existing
complaint in exactly the same area (zero when there is no candidate). -/
def maxSimilarity (nw : List String) (area : String) (existing : List CandidateC) : ℚ :=
  ((existing.filter (fun e => e.area == area)).map
    (fun e => jaccardSimilarity nw (getWords e.description))).foldl max 0

/-- Number of keywords of the list occurring as substrings of the text. -/
def keywordHitCount (text : String) (keywords : List String) : ℕ :=
  (keywords.filter (fun kw => jsIncludes text kw)).length

/-- The department boost to the Critical score stated by the specification. -/
def specBoostCritical (dept : String) : ℚ :=
  if dept = "Electricity" ∨ dept = "Water Resources" ∨ dept = "Public Health" then 1
  else if dept = "Roads & Highways" then 1 / 2
  else 0

/-- The department boost to the High score stated by the specification. -/
def specBoostHigh (dept : String) : ℚ :=
  if dept = "Electricity" ∨ dept = "Water Resources" ∨ dept = "Public Health" then 1 / 2
  else if dept = "Roads & Highways" then 1 / 4
  else 0

/-- Critical score per the specification: three points per Critical keyword
found in the lower-cased description-plus-department text, plus the boost. -/
def specScoreCritical (d dept : String) : ℚ :=
  3 * keywordHitCount (jsLower (d ++ " " ++ dept)) criticalKeywords + specBoostCritical dept

/-- High score per the specification: two points per High keyword, plus the
boost. -/
def specScoreHigh (d dept : String) : ℚ :=
  2 * keywordHitCount (jsLower (d ++ " " ++ dept)) highKeywords + specBoostHigh dept

/-- Medium score per the specification: one point per Medium keyword. -/
def specScoreMedium (d dept : String) : ℚ :=
  keywordHitCount (jsLower (d ++ " " ++ dept)) mediumKeywords

/-- Low score per the specification: one point per Low keyword. -/
def specScoreLow (d dept : String) : ℚ :=
  keywordHitCount (jsLower (d ++ " " ++ dept)) lowKeywords

/-- The priority the specification prescribes: the highest-scoring level,
ties broken by the precedence Critical, High, Medium, Low, and Medium when
all four scores are zero. -/
def specPriority (d dept : String) : String :=
  let sC := specScoreCritical d dept
  let sH := specScoreHigh d dept
  let sM := specScoreMedium d dept
  let sL := specScoreLow d dept
  if sC = 0 ∧ sH = 0 ∧ sM = 0 ∧ sL = 0 then "Medium"
  else if sH ≤ sC ∧ sM ≤ sC ∧ sL ≤ sC then "Critical"
  else if sM ≤ sH ∧ sL ≤ sH then "High"
  else if sL ≤ sM then "Medium"
  else "Low"

/-- A provider's count of complaints held in an active (Accepted or
Working On) status — the quantity bounded by the capacity invariant. -/
def providerActive (db : List Complaint) (pid : ℕ) : ℕ :=
  db.countP (fun c => (c.assignedTo == some pid) && activeStatuses.contains c.status)

/-- The first element of the list minimising f, ties broken by listing order
(spec-side statement of the balancer's choice). -/
def firstMinBy (f : α → ℕ) : List α → Option α
  | [] => none
  | x :: xs =>
    match firstMinBy f xs with
    | none => some x
    | some m => some (if f x ≤ f m then x else m)

/-- The first element of the list maximising f, ties broken by listing order
(spec-side statement of the department ranking). -/
def firstMaxBy (f : α → ℚ) : List α → Option α
  | [] => none
  | x :: xs =>
    match firstMaxBy f xs with
    | none => some x
    | some m => some (if f m ≤ f x then x else m)

/-- Sum of the positive department scores, in enumeration order. -/
def positiveScoreSum (scores : List (String × ℚ)) : ℚ :=
  ((scores.filter (fun p => decide (0 < p.2))).map (fun p => p.2)).sum

/-! ## Concrete fixtures used by witnesses and counterexamples -/

/-- A provider of the Electricity department. -/
def exProvider : UserT :=
  ⟨10, "Priya", "priya@tnsmp.gov.in", "provider", "Electricity"⟩

/-- A freshly registered, unassigned complaint. -/
def exComplaintA : Complaint :=
  { id := 1, ticketId := "TNSMP-100001-001", userId := 5, userName := "Usha",
    userEmail := "usha@mail.in", area := "Chennai", address := "",
    department := "Electricity", description := "streetlight not working on main road",
    photo := "img", priority := "Medium", status := "Registered",
    isDuplicate := false, duplicateOf := none, isFake := false, aiRemarks := "",
    assignedTo := none, assignedToName := none, resolution := none,
    statusHistory := [⟨"Registered", 0, none, "System", "Complaint registered successfully"⟩],
    rating := none, feedback := none }

/-- Projection of a route result to the created or updated document. -/
def createdDoc : RouteResult → Option Complaint
  | .ok c => some c
  | .err _ _ => none

/-- A citizen account. -/
def exCitizen : UserT :=
  ⟨5, "Usha", "usha@mail.in", "user", ""⟩

/-- A duplicate-but-not-fake integrity verdict. -/
def exDupVerdict : DupResult :=
  ⟨true, some "TNSMP-100001-001", false, "72% similar to existing complaint TNSMP-100001-001"⟩

/-- A fake integrity verdict. -/
def exFakeVerdict : DupResult :=
  ⟨false, none, true, "Description too short to be a valid complaint"⟩

/-- A clean integrity verdict. -/
def exCleanVerdict : DupResult :=
  ⟨false, none, false, "Complaint appears valid and unique"⟩

/-- A complaint the provider has already accepted (active capacity consumed). -/
def exComplaintB : Complaint :=
  { exComplaintA with
    id := 2
    ticketId := "TNSMP-100002-002"
    status := "Accepted"
    assignedTo := some 10
    assignedToName := some "Priya" }

/-! ## Helper lemmas -/

theorem length_insertStable (r : α → α → Bool) (x : α) (l : List α) :
    (insertStable r x l).length = l.length + 1 := by
  induction l with
  | nil => rfl
  | cons y ys ih =>
    simp only [insertStable]
    split <;> simp [ih]

theorem mem_insertStable (r : α → α → Bool) (x : α) (l : List α) (a : α) :
    a ∈ insertStable r x l ↔ a = x ∨ a ∈ l := by
  induction l with
  | nil => simp [insertStable]
  | cons y ys ih =>
    simp only [insertStable]
    split
    · simp
    · simp only [List.mem_cons, ih]
      tauto

theorem insertStable_perm (r : α → α → Bool) (x : α) (l : List α) :
    (insertStable r x l).Perm (x :: l) := by
  induction l with
  | nil => simp [insertStable]
  | cons y ys ih =>
    simp only [insertStable]
    split
    · exact List.Perm.refl _
    · exact (List.Perm.cons y ih).trans (List.Perm.swap x y ys)

theorem sortStable_perm (r : α → α → Bool) (l : List α) :
    (sortStable r l).Perm l := by
  induction l with
  | nil => exact List.Perm.refl _
  | cons x xs ih =>
    exact (insertStable_perm r x (sortStable r xs)).trans (List.Perm.cons x ih)

theorem mem_sortStable (r : α → α → Bool) (l : List α) (a : α) :
    a ∈ sortStable r l ↔ a ∈ l :=
  (sortStable_perm r l).mem_iff

theorem sortStable_ne_nil (r : α → α → Bool) (x : α) (l : List α) :
    sortStable r (x :: l) ≠ [] := by
  intro h
  have := (sortStable_perm r (x :: l)).length_eq
  rw [h] at this
  simp at this

theorem head?_insertStable (r : α → α → Bool) (x y : α) (t : List α) :
    (insertStable r x (y :: t)).head? = some (if r x y then x else y) := by
  simp only [insertStable]
  split <;> simp

/-- The head of a stable sort is the frontBest element. -/
theorem head?_sortStable (r : α → α → Bool) (a : α) (l : List α) :
    (sortStable r (a :: l)).head? = some (frontBest r a l) := by
  induction l generalizing a with
  | nil => rfl
  | cons b t ih =>
    have hs : sortStable r (a :: b :: t) = insertStable r a (sortStable r (b :: t)) := rfl
    cases hst : sortStable r (b :: t) with
    | nil => exact absurd hst (sortStable_ne_nil r b t)
    | cons h hs2 =>
      have hh : h = frontBest r b t := by
        have := ih b
        rw [hst] at this
        simpa using this
      rw [hs, hst, head?_insertStable, hh]
      simp only [frontBest]

/-- The frontBest element is a member of the list it is chosen from. -/
theorem frontBest_mem (r : α → α → Bool) (a : α) (l : List α) :
    frontBest r a l ∈ a :: l := by
  induction l generalizing a with
  | nil => simp [frontBest]
  | cons b t ih =>
    simp only [frontBest]
    split
    · simp
    · have := ih b
      simp only [List.mem_cons] at this ⊢
      tauto

/-- With a total, transitive relation, the frontBest element is r-below every
element of the list. -/
theorem frontBest_rel (r : α → α → Bool)
    (htot : ∀ x y, r x y = true ∨ r y x = true)
    (htrans : ∀ x y z, r x y = true → r y z = true → r x z = true)
    (a : α) (l : List α) :
    ∀ y ∈ a :: l, r (frontBest r a l) y = true := by
  induction l generalizing a with
  | nil =>
    intro y hy
    simp only [List.mem_cons, List.not_mem_nil, or_false] at hy
    subst hy
    simp only [frontBest]
    rcases htot y y with h | h <;> exact h
  | cons b t ih =>
    intro y hy
    have hm := ih b
    simp only [frontBest]
    have hself : ∀ z, r z z = true := by
      intro z; rcases htot z z with h | h <;> exact h
    rcases List.mem_cons.mp hy with hya | hybt
    · subst hya
      split
      · exact hself y
      · rename_i hna
        rcases htot y (frontBest r b t) with h | h
        · exact absurd h hna
        · exact h
    · split
      · rename_i ha
        exact htrans _ _ _ ha (hm y hybt)
      · exact hm y hybt

theorem length_dropWhile_le_blaze (p : α → Bool) (l : List α) :
    (l.dropWhile p).length ≤ l.length := by
  induction l with
  | nil => simp
  | cons x xs ih =>
    simp only [List.dropWhile]
    split
    · exact Nat.le_succ_of_le ih
    · simp

theorem jsTrimList_length_le (l : List Char) : (jsTrimList l).length ≤ l.length := by
  unfold jsTrimList
  calc ((l.dropWhile jsSpace).reverse.dropWhile jsSpace).reverse.length
      = ((l.dropWhile jsSpace).reverse.dropWhile jsSpace).length := by
        rw [List.length_reverse]
    _ ≤ (l.dropWhile jsSpace).reverse.length := length_dropWhile_le_blaze _ _
    _ = (l.dropWhile jsSpace).length := by rw [List.length_reverse]
    _ ≤ l.length := length_dropWhile_le_blaze _ _

theorem jsTrim_length_le (s : String) : (jsTrim s).length ≤ s.length :=
  jsTrimList_length_le s.toList

theorem fakeCheck_isSome_iff (d : String) :
    (fakeCheck d).isSome = true ↔ fakeCondAny d := by
  unfold fakeCheck fakeCondAny fakeCondShort fakeCondNoWords fakeCondRepeat fakeCondGibberish
    fakeCondKeyboard fakeCondOneWord
  dsimp only
  split_ifs with h1 h2 h3 h4 h5 h6 <;>
    simp_all [List.length_eq_zero] <;>
    first
    | tauto
    | linarith
    | omega
    | (intro hlen
       by_contra hc
       push_neg at hc
       exact absurd (h4 hc) (by omega))

theorem isFake_localDetect (d dept area : String) (existing : List CandidateC) :
    (localDetectDuplicateOrFake d dept area existing).isFake = (fakeCheck d).isSome := by
  unfold localDetectDuplicateOrFake
  cases hf : fakeCheck d with
  | some r => rfl
  | none =>
    dsimp only
    split
    · split <;> rfl
    · rfl

theorem fake_localDetect_fields (d dept area : String) (existing : List CandidateC)
    (r : String) (h : fakeCheck d = some r) :
    localDetectDuplicateOrFake d dept area existing = ⟨false, none, true, r⟩ := by
  unfold localDetectDuplicateOrFake
  rw [h]

theorem scanFold_snd (nw : List String) (area : String) (existing : List CandidateC) :
    ∀ acc : Option CandidateC × ℚ,
      (existing.foldl (scanStep nw area) acc).2 =
        ((existing.filter (fun e => e.area == area)).map
          (fun e => jaccardSimilarity nw (getWords e.description))).foldl max acc.2 := by
  induction existing with
  | nil => intro acc; rfl
  | cons e es ih =>
    intro acc
    simp only [List.foldl_cons]
    by_cases ha : e.area = area
    · have hfil : List.filter (fun x => x.area == area) (e :: es) =
          e :: List.filter (fun x => x.area == area) es := by
        simp [List.filter_cons, ha]
      rw [hfil]
      simp only [List.map_cons, List.foldl_cons]
      by_cases hlt : acc.2 < jaccardSimilarity nw (getWords e.description)
      · have hstep : scanStep nw area acc e =
            (some e, jaccardSimilarity nw (getWords e.description)) := by
          unfold scanStep
          rw [if_neg (by simp [ha]), if_pos hlt]
        rw [hstep, ih, max_eq_right (le_of_lt hlt)]
      · have hstep : scanStep nw area acc e = acc := by
          unfold scanStep
          rw [if_neg (by simp [ha]), if_neg hlt]
        rw [hstep, ih, max_eq_left (le_of_not_lt hlt)]
    · have hfil : List.filter (fun x => x.area == area) (e :: es) =
          List.filter (fun x => x.area == area) es := by
        simp [List.filter_cons, ha]
      have hstep : scanStep nw area acc e = acc := by
        unfold scanStep
        rw [if_pos (by simpa using ha)]
      rw [hfil, hstep, ih]

theorem scanFold_found (nw : List String) (area : String) (existing : List CandidateC) :
    ∀ b s,
      existing.foldl (scanStep nw area) (b, s) = (b, s) ∨
        ∃ m ∈ existing, m.area = area ∧
          (existing.foldl (scanStep nw area) (b, s)).1 = some m ∧
          (existing.foldl (scanStep nw area) (b, s)).2 =
            jaccardSimilarity nw (getWords m.description) ∧
          s < (existing.foldl (scanStep nw area) (b, s)).2 := by
  induction existing with
  | nil => intro b s; exact Or.inl rfl
  | cons e es ih =>
    intro b s
    simp only [List.foldl_cons]
    by_cases ha : e.area = area
    · by_cases hlt : s < jaccardSimilarity nw (getWords e.description)
      · have hstep : scanStep nw area (b, s) e =
            (some e, jaccardSimilarity nw (getWords e.description)) := by
          unfold scanStep
          rw [if_neg (by simp [ha]), if_pos hlt]
        rw [hstep]
        rcases ih (some e) (jaccardSimilarity nw (getWords e.description)) with heq | ⟨m, hm, hma, h1, h2, h3⟩
        · rw [heq]
          exact Or.inr ⟨e, List.mem_cons_self e es, ha, rfl, rfl, hlt⟩
        · exact Or.inr ⟨m, List.mem_cons_of_mem e hm, hma, h1, h2, lt_trans hlt h3⟩
      · have hstep : scanStep nw area (b, s) e = (b, s) := by
          unfold scanStep
          rw [if_neg (by simp [ha]), if_neg hlt]
        rw [hstep]
        rcases ih b s with heq | ⟨m, hm, hma, h1, h2, h3⟩
        · exact Or.inl heq
        · exact Or.inr ⟨m, List.mem_cons_of_mem e hm, hma, h1, h2, h3⟩
    · have hstep : scanStep nw area (b, s) e = (b, s) := by
        unfold scanStep
        rw [if_pos (by simpa using ha)]
      rw [hstep]
      rcases ih b s with heq | ⟨m, hm, hma, h1, h2, h3⟩
      · exact Or.inl heq
      · exact Or.inr ⟨m, List.mem_cons_of_mem e hm, hma, h1, h2, h3⟩

theorem scanBest_snd_eq_maxSimilarity (nw : List String) (area : String)
    (existing : List CandidateC) :
    (scanBest nw area existing).2 = maxSimilarity nw area existing := by
  unfold scanBest maxSimilarity
  exact scanFold_snd nw area existing (none, 0)

theorem scoreFold_eq (p : String → Bool) (w : ℚ) (kws : List String) :
    ∀ s0 : ℚ, kws.foldl (fun s kw => if p kw then s + w else s) s0 =
      s0 + w * ((kws.filter p).length : ℚ) := by
  induction kws with
  | nil => intro s0; simp
  | cons k ks ih =>
    intro s0
    simp only [List.foldl_cons, List.filter_cons]
    by_cases hp : p k
    · rw [if_pos hp, if_pos hp, ih (s0 + w)]
      simp only [List.length_cons]
      push_cast
      ring
    · rw [if_neg hp, if_neg hp, ih s0]

theorem scoreKeywords_eq (text : String) (kws : List String) (w : ℚ) :
    scoreKeywords text kws w = w * (keywordHitCount text kws : ℚ) := by
  unfold scoreKeywords keywordHitCount
  rw [scoreFold_eq]
  ring

theorem deptBoost_eq_specBoostCritical (dept : String) :
    deptBoost dept = specBoostCritical dept := by
  unfold deptBoost specBoostCritical
  split_ifs <;> simp_all <;> tauto

theorem deptBoost_half_eq_specBoostHigh (dept : String) :
    deptBoost dept * (1 / 2) = specBoostHigh dept := by
  unfold deptBoost specBoostHigh
  split_ifs <;> simp_all <;> try tauto
  all_goals norm_num

theorem frontBest_four (sC sH sM sL : ℚ) :
    frontBest (fun x y : String × ℚ => decide (y.2 ≤ x.2)) ("Critical", sC)
      [("High", sH), ("Medium", sM), ("Low", sL)] =
    (if sH ≤ sC ∧ sM ≤ sC ∧ sL ≤ sC then ("Critical", sC)
     else if sM ≤ sH ∧ sL ≤ sH then ("High", sH)
     else if sL ≤ sM then ("Medium", sM)
     else ("Low", sL)) := by
  by_cases h1 : sL ≤ sM <;> by_cases h2 : sM ≤ sH <;> by_cases h3 : sL ≤ sH <;>
    by_cases h4 : sH ≤ sC <;> by_cases h5 : sM ≤ sC <;> by_cases h6 : sL ≤ sC <;>
    simp [frontBest, h1, h2, h3, h4, h5, h6] <;>
    first
    | rfl
    | (exfalso; linarith)
    | linarith

theorem select_four (sC sH sM sL : ℚ) (hC : 0 ≤ sC) (hH : 0 ≤ sH) (hM : 0 ≤ sM) (hL : 0 ≤ sL) :
    (if 0 < (if sH ≤ sC ∧ sM ≤ sC ∧ sL ≤ sC then (("Critical", sC) : String × ℚ)
        else if sM ≤ sH ∧ sL ≤ sH then ("High", sH)
        else if sL ≤ sM then ("Medium", sM)
        else ("Low", sL)).2 then
      (if sH ≤ sC ∧ sM ≤ sC ∧ sL ≤ sC then (("Critical", sC) : String × ℚ)
        else if sM ≤ sH ∧ sL ≤ sH then ("High", sH)
        else if sL ≤ sM then ("Medium", sM)
        else ("Low", sL)).1
      else "Medium") =
    (if sC = 0 ∧ sH = 0 ∧ sM = 0 ∧ sL = 0 then "Medium"
     else if sH ≤ sC ∧ sM ≤ sC ∧ sL ≤ sC then "Critical"
     else if sM ≤ sH ∧ sL ≤ sH then "High"
     else if sL ≤ sM then "Medium"
     else "Low") := by
  by_cases p1 : sH ≤ sC ∧ sM ≤ sC ∧ sL ≤ sC
  · by_cases hc : 0 < sC
    · have hnz : ¬ (sC = 0 ∧ sH = 0 ∧ sM = 0 ∧ sL = 0) := by
        intro h
        rw [h.1] at hc
        exact lt_irrefl 0 hc
      simp [p1, hc, hnz]
    · have hc0 : sC = 0 := le_antisymm (le_of_not_lt hc) hC
      have hz : sC = 0 ∧ sH = 0 ∧ sM = 0 ∧ sL = 0 :=
        ⟨hc0, le_antisymm (hc0 ▸ p1.1) hH, le_antisymm (hc0 ▸ p1.2.1) hM,
          le_antisymm (hc0 ▸ p1.2.2) hL⟩
      simp [p1, hc, hz]
  · by_cases p2 : sM ≤ sH ∧ sL ≤ sH
    · have hpos : 0 < sH := by
        rcases lt_or_le sC sH with h | h
        · exact lt_of_le_of_lt hC h
        · exact absurd ⟨h, le_trans p2.1 h, le_trans p2.2 h⟩ p1
      have hnz : ¬ (sC = 0 ∧ sH = 0 ∧ sM = 0 ∧ sL = 0) := by
        intro h
        rw [h.2.1] at hpos
        exact lt_irrefl 0 hpos
      simp [p1, p2, hpos, hnz]
    · by_cases p3 : sL ≤ sM
      · have hpos : 0 < sM := by
          rcases lt_or_le sH sM with h | h
          · exact lt_of_le_of_lt hH h
          · exact absurd ⟨h, le_trans p3 h⟩ p2
        have hnz : ¬ (sC = 0 ∧ sH = 0 ∧ sM = 0 ∧ sL = 0) := by
          intro h
          rw [h.2.2.1] at hpos
          exact lt_irrefl 0 hpos
        simp [p1, p2, p3, hpos, hnz]
      · have hpos : 0 < sL := lt_of_le_of_lt hM (lt_of_not_le p3)
        have hnz : ¬ (sC = 0 ∧ sH = 0 ∧ sM = 0 ∧ sL = 0) := by
          intro h
          rw [h.2.2.2] at hpos
          exact lt_irrefl 0 hpos
        simp [p1, p2, p3, hpos, hnz]

theorem scoreKeywords_nonneg (text : String) (kws : List String) (w : ℚ) (hw : 0 ≤ w) :
    0 ≤ scoreKeywords text kws w := by
  rw [scoreKeywords_eq]
  exact mul_nonneg hw (Nat.cast_nonneg _)

theorem deptBoost_nonneg (dept : String) : 0 ≤ deptBoost dept := by
  unfold deptBoost
  split_ifs <;> norm_num

/-! ## Claim theorems -/

/-- C7: in fallback mode the priority is a pure function of description and
department, computed exactly as the specification states: per-keyword weights
3/2/1/1 over the lower-cased concatenation, the stated department boosts to
Critical and High, highest score wins with ties broken by the precedence
Critical, High, Medium, Low, and Medium when all scores are zero. -/
theorem claim_C7_priority_fallback (d dept : String) :
    localPrioritize d dept = specPriority d dept := by
  have hbC : 0 ≤ specBoostCritical dept := by
    unfold specBoostCritical
    split_ifs <;> norm_num
  have hbH : 0 ≤ specBoostHigh dept := by
    unfold specBoostHigh
    split_ifs <;> norm_num
  have eC : scoreKeywords (jsLower (d ++ " " ++ dept)) criticalKeywords 3 + deptBoost dept =
      specScoreCritical d dept := by
    rw [scoreKeywords_eq, deptBoost_eq_specBoostCritical]
    rfl
  have eH : scoreKeywords (jsLower (d ++ " " ++ dept)) highKeywords 2 +
      deptBoost dept * (1 / 2) = specScoreHigh d dept := by
    rw [scoreKeywords_eq, deptBoost_half_eq_specBoostHigh]
    rfl
  have eM : scoreKeywords (jsLower (d ++ " " ++ dept)) mediumKeywords 1 =
      specScoreMedium d dept := by
    rw [scoreKeywords_eq]
    exact one_mul _
  have eL : scoreKeywords (jsLower (d ++ " " ++ dept)) lowKeywords 1 =
      specScoreLow d dept := by
    rw [scoreKeywords_eq]
    exact one_mul _
  have nC : 0 ≤ specScoreCritical d dept :=
    add_nonneg (mul_nonneg (by norm_num) (Nat.cast_nonneg _)) hbC
  have nH : 0 ≤ specScoreHigh d dept :=
    add_nonneg (mul_nonneg (by norm_num) (Nat.cast_nonneg _)) hbH
  have nM : 0 ≤ specScoreMedium d dept := Nat.cast_nonneg _
  have nL : 0 ≤ specScoreLow d dept := Nat.cast_nonneg _
  unfold localPrioritize
  dsimp only
  rw [eC, eH, eM, eL, head?_sortStable]
  dsimp only
  rw [frontBest_four]
  unfold specPriority
  exact select_four _ _ _ _ nC nH nM nL

/-- C4: the integrity filter flags every description shorter than 10
characters as fake; more generally its verdict is fake exactly when one of
the six fake conditions holds, and a fake verdict always comes with
isDuplicate = false and no duplicate pointer — a fake complaint is never
evaluated for duplication. -/
theorem claim_C4_fake_detection (d dept area : String) (existing : List CandidateC) :
    (d.length < 10 → (localDetectDuplicateOrFake d dept area existing).isFake = true)
    ∧ ((localDetectDuplicateOrFake d dept area existing).isFake = true ↔ fakeCondAny d)
    ∧ ((localDetectDuplicateOrFake d dept area existing).isFake = true →
        (localDetectDuplicateOrFake d dept area existing).isDuplicate = false ∧
          (localDetectDuplicateOrFake d dept area existing).duplicateOf = none) := by
  have hiff : (localDetectDuplicateOrFake d dept area existing).isFake = true ↔ fakeCondAny d := by
    rw [isFake_localDetect]
    exact fakeCheck_isSome_iff d
  refine ⟨?_, hiff, ?_⟩
  · intro h
    exact hiff.mpr (Or.inl (lt_of_le_of_lt (jsTrim_length_le d) h))
  · intro hf
    have hs : (fakeCheck d).isSome := by
      rw [← isFake_localDetect d dept area existing]
      exact hf
    obtain ⟨r, hr⟩ := Option.isSome_iff_exists.mp hs
    rw [fake_localDetect_fields d dept area existing r hr]
    exact ⟨rfl, rfl⟩

/-- Witness for C4 at the concrete input "short". -/
theorem claim_C4_fake_detection_witness :
    (localDetectDuplicateOrFake "short" "Electricity" "Chennai" []).isFake = true ∧
      (localDetectDuplicateOrFake "short" "Electricity" "Chennai" []).isDuplicate = false := by
  have h := claim_C4_fake_detection "short" "Electricity" "Chennai" []
  exact ⟨h.1 (by decide), (h.2.2 (h.1 (by decide))).1⟩

/-- C3: given a description that passes the fake checks, the duplicate check
considers only candidates in exactly the same area; when the maximum Jaccard
similarity over those candidates reaches 0.6 the verdict is duplicate,
pointing at a candidate achieving that maximum, with a remark reporting the
rounded similarity percentage; below 0.6 the verdict is not-duplicate with no
pointer. -/
theorem claim_C3_duplicate_check (d dept area : String) (existing : List CandidateC)
    (hok : fakeCheck d = none) :
    (6 / 10 ≤ maxSimilarity (getWords d) area existing →
      (localDetectDuplicateOrFake d dept area existing).isDuplicate = true ∧
        ∃ m ∈ existing, m.area = area ∧
          jaccardSimilarity (getWords d) (getWords m.description) =
            maxSimilarity (getWords d) area existing ∧
          (localDetectDuplicateOrFake d dept area existing).duplicateOf = some m.ticketId ∧
          (localDetectDuplicateOrFake d dept area existing).remarks =
            toString (jsRound (maxSimilarity (getWords d) area existing * 100)) ++
              "% similar to existing complaint " ++ m.ticketId)
    ∧ (maxSimilarity (getWords d) area existing < 6 / 10 →
        (localDetectDuplicateOrFake d dept area existing).isDuplicate = false ∧
          (localDetectDuplicateOrFake d dept area existing).duplicateOf = none) := by
  have hbest := scanBest_snd_eq_maxSimilarity (getWords d) area existing
  constructor
  · intro hge
    have hpos : (0 : ℚ) < (scanBest (getWords d) area existing).2 := by
      rw [hbest]
      linarith
    rcases scanFold_found (getWords d) area existing none 0 with heq | ⟨m, hm, hma, h1, h2, h3⟩
    · exfalso
      have : (scanBest (getWords d) area existing).2 = 0 := by
        unfold scanBest
        rw [heq]
      rw [this] at hpos
      exact lt_irrefl 0 hpos
    · have hsim : jaccardSimilarity (getWords d) (getWords m.description) =
          maxSimilarity (getWords d) area existing := by
        rw [← hbest]
        unfold scanBest
        rw [h2]
      have hres : localDetectDuplicateOrFake d dept area existing =
          ⟨true, some m.ticketId, false,
            toString (jsRound ((scanBest (getWords d) area existing).2 * 100)) ++
              "% similar to existing complaint " ++ m.ticketId⟩ := by
        have h1s : (scanBest (getWords d) area existing).1 = some m := h1
        unfold localDetectDuplicateOrFake
        rw [hok]
        dsimp only
        rw [if_pos (by rw [hbest]; exact hge), h1s]
      rw [hres]
      refine ⟨rfl, m, hm, hma, hsim, rfl, ?_⟩
      rw [hbest]
  · intro hlt
    have hres : localDetectDuplicateOrFake d dept area existing =
        ⟨false, none, false, "Complaint appears valid and unique"⟩ := by
      unfold localDetectDuplicateOrFake
      rw [hok]
      dsimp only
      rw [if_neg (by rw [hbest]; exact not_le.mpr hlt)]
    rw [hres]
    exact ⟨rfl, rfl⟩

attribute [local semireducible] Rat.mul Rat.inv Rat.add Rat.sub in
/-- Witness for C3 at a concrete near-duplicate pair in the same area. -/
theorem claim_C3_duplicate_check_witness :
    (localDetectDuplicateOrFake
      "water pipe leaking near main road causing flooding here" "Water Resources" "Chennai"
      [⟨"T1", "water pipe leaking near main road causing flooding", "Chennai", "Registered"⟩]).isDuplicate = true ∧
    (localDetectDuplicateOrFake
      "water pipe leaking near main road causing flooding here" "Water Resources" "Chennai"
      [⟨"T1", "water pipe leaking near main road causing flooding", "Chennai", "Registered"⟩]).duplicateOf = some "T1" := by
  have h := claim_C3_duplicate_check
    "water pipe leaking near main road causing flooding here" "Water Resources" "Chennai"
    [⟨"T1", "water pipe leaking near main road causing flooding", "Chennai", "Registered"⟩]
    (by decide)
  have hge : (6 : ℚ) / 10 ≤ maxSimilarity
      (getWords "water pipe leaking near main road causing flooding here") "Chennai"
      [⟨"T1", "water pipe leaking near main road causing flooding", "Chennai", "Registered"⟩] := by
    decide
  obtain ⟨hdup, m, hm, hma, hsim, hdof, hrem⟩ := h.1 hge
  refine ⟨hdup, ?_⟩
  have hm1 : m = (⟨"T1", "water pipe leaking near main road causing flooding", "Chennai",
      "Registered"⟩ : CandidateC) := by
    simpa using hm
  rw [hdof, hm1]

theorem updateStatus_err_unchanged (db : List Complaint) (user : UserT) (cid : ℕ)
    (target : String) (resolution : Option String) (now : ℕ) (code : ℕ) (msg : String)
    (h : (updateStatus db user cid target resolution now).1 = .err code msg) :
    (updateStatus db user cid target resolution now).2 = db := by
  unfold updateStatus at h ⊢
  rcases hf : db.find? (fun x => x.id == cid) with _ | c <;> rw [hf] at h ⊢
  · dsimp only at h ⊢
    by_cases h1 : c.department ≠ user.department
    · rw [if_pos h1]
    · rw [if_neg h1] at h ⊢
      by_cases h2 : ¬ (allowedTargets c.status).contains target = true
      · rw [if_pos h2]
      · rw [if_neg h2] at h ⊢
        by_cases h3 : target = "Accepted" ∧ 0 < countOtherActive db user.id c.id
        · rw [if_pos h3]
        · rw [if_neg h3] at h
          simp at h

theorem updateStatus_ok_inv (db : List Complaint) (user : UserT) (cid : ℕ)
    (target : String) (resolution : Option String) (now : ℕ) (c' : Complaint)
    (h : (updateStatus db user cid target resolution now).1 = .ok c') :
    ∃ c, db.find? (fun x => x.id == cid) = some c ∧ c.department = user.department ∧
      (allowedTargets c.status).contains target = true ∧
      ¬ (target = "Accepted" ∧ 0 < countOtherActive db user.id c.id) ∧
      c' = applyTransition c user target resolution now ∧
      (updateStatus db user cid target resolution now).2 =
        db.map (fun x => if x.id == c.id then c' else x) := by
  unfold updateStatus at h ⊢
  rcases hf : db.find? (fun x => x.id == cid) with _ | c <;> rw [hf] at h ⊢
  · simp at h
  · dsimp only at h ⊢
    by_cases h1 : c.department ≠ user.department
    · rw [if_pos h1] at h
      simp at h
    · rw [if_neg h1] at h ⊢
      by_cases h2 : ¬ (allowedTargets c.status).contains target = true
      · rw [if_pos h2] at h
        simp at h
      · rw [if_neg h2] at h ⊢
        by_cases h3 : target = "Accepted" ∧ 0 < countOtherActive db user.id c.id
        · rw [if_pos h3] at h
          simp at h
        · rw [if_neg h3] at h ⊢
          have hcc : c' = applyTransition c user target resolution now := by
            simpa using h.symm
          exact ⟨c, rfl, not_not.mp h1, not_not.mp h2, h3, hcc, by rw [hcc]⟩

theorem countP_update_map (db : List Complaint) (cid : ℕ) (c' : Complaint)
    (P : Complaint → Bool) :
    (db.map (fun x => if x.id == cid then c' else x)).countP P =
      (if P c' then db.countP (fun x => x.id == cid) else 0) +
        db.countP (fun x => !(x.id == cid) && P x) := by
  induction db with
  | nil => simp
  | cons a l ih =>
    simp only [List.map_cons, List.countP_cons, ih]
    by_cases hid : (a.id == cid) = true <;> by_cases hpc : P c' = true <;>
      by_cases hpa : P a = true <;>
      simp [hid, hpc, hpa] <;> omega

theorem countP_id_le_one (db : List Complaint) (hnodup : (db.map (fun c => c.id)).Nodup)
    (n : ℕ) : db.countP (fun x => x.id == n) ≤ 1 := by
  have he : db.countP (fun x => x.id == n) = (db.map (fun c => c.id)).count n := by
    rw [List.count_eq_countP, List.countP_map]
    rfl
  rw [he]
  exact List.nodup_iff_count_le_one.mp hnodup n

/-- C1 (amended): the status-update operation refuses every transition whose
(current status, target status) pair is not in the table, with the error
naming the attempted and the allowed transitions, and every refusal leaves
the complaint store unchanged; a transition whose pair is in the table is
accepted provided that, when the target is Accepted, the acting provider
holds no other active complaint. -/
theorem claim_C1_lifecycle_transitions (db : List Complaint) (user : UserT) (cid : ℕ)
    (target : String) (resolution : Option String) (now : ℕ) :
    (∀ code msg, (updateStatus db user cid target resolution now).1 = .err code msg →
      (updateStatus db user cid target resolution now).2 = db)
    ∧ (∀ c, db.find? (fun x => x.id == cid) = some c → c.department = user.department →
        (¬ (allowedTargets c.status).contains target = true →
          updateStatus db user cid target resolution now =
            (.err 400 (transitionErrorMsg c.status target (allowedTargets c.status)), db))
        ∧ ((allowedTargets c.status).contains target = true →
            (target = "Accepted" → countOtherActive db user.id c.id = 0) →
            updateStatus db user cid target resolution now =
              (.ok (applyTransition c user target resolution now),
                db.map (fun x => if x.id == c.id
                  then applyTransition c user target resolution now else x)))) := by
  refine ⟨fun code msg h =>
    updateStatus_err_unchanged db user cid target resolution now code msg h, ?_⟩
  intro c hf hdept
  constructor
  · intro hnot
    unfold updateStatus
    rw [hf]
    dsimp only
    rw [if_neg (fun hh => hh hdept), if_pos hnot]
  · intro hcont hcap
    unfold updateStatus
    rw [hf]
    dsimp only
    rw [if_neg (fun hh => hh hdept), if_neg (not_not_intro hcont),
      if_neg (fun hc => absurd ((hcap hc.1) ▸ hc.2) (lt_irrefl 0))]

/-- Counterexample to C1 as stated: the pair (Registered, Accepted) is in the
transition table, yet the operation refuses the request because the acting
provider already holds an active complaint (capacity conflict), leaving the
store unchanged — so transitions in the table are not always accepted. -/
theorem claim_C1_counterexample :
    (allowedTargets "Registered").contains "Accepted" = true ∧
    (updateStatus [exComplaintA, exComplaintB] exProvider 1 "Accepted" none 5).1 =
      .err 400 capacityErrorMsg ∧
    (updateStatus [exComplaintA, exComplaintB] exProvider 1 "Accepted" none 5).2 =
      [exComplaintA, exComplaintB] := by
  refine ⟨by decide, by decide, by decide⟩

/-- Witness for C1 (amended): a concrete refused Registered to Working On
request with the exact error message and unchanged store, and a concrete
accepted Registered to Accepted request. -/
theorem claim_C1_lifecycle_transitions_witness :
    updateStatus [exComplaintA] exProvider 1 "Working On" none 3 =
      (.err 400 (transitionErrorMsg "Registered" "Working On" ["Accepted", "Rejected"]),
        [exComplaintA]) ∧
    updateStatus [exComplaintA] exProvider 1 "Accepted" none 3 =
      (.ok (applyTransition exComplaintA exProvider "Accepted" none 3),
        [applyTransition exComplaintA exProvider "Accepted" none 3]) := by
  have h1 := claim_C1_lifecycle_transitions [exComplaintA] exProvider 1 "Working On" none 3
  have h2 := claim_C1_lifecycle_transitions [exComplaintA] exProvider 1 "Accepted" none 3
  constructor
  · exact (h1.2 exComplaintA rfl rfl).1 (by decide)
  · exact (h2.2 exComplaintA rfl rfl).2 (by decide) (fun _ => by decide)

/-- C2: a transition into Accepted by a provider who still holds another
active complaint is refused with the capacity-conflict message and leaves the
store unchanged; and a successful Accept preserves the invariant that every
provider holds at most one complaint in an active status. -/
theorem claim_C2_capacity_invariant (db : List Complaint) (user : UserT) (cid : ℕ)
    (resolution : Option String) (now : ℕ) :
    (∀ c, db.find? (fun x => x.id == cid) = some c → c.department = user.department →
      (allowedTargets c.status).contains "Accepted" = true →
      0 < countOtherActive db user.id c.id →
      updateStatus db user cid "Accepted" resolution now = (.err 400 capacityErrorMsg, db))
    ∧ ((db.map (fun c => c.id)).Nodup → (∀ p, providerActive db p ≤ 1) →
        ∀ c', (updateStatus db user cid "Accepted" resolution now).1 = .ok c' →
          ∀ p, providerActive (updateStatus db user cid "Accepted" resolution now).2 p ≤ 1) := by
  constructor
  · intro c hf hdept hcont hcap
    unfold updateStatus
    rw [hf]
    dsimp only
    rw [if_neg (fun h => h hdept), if_neg (not_not_intro hcont), if_pos ⟨rfl, hcap⟩]
  · intro hnodup hinv c' hok p
    obtain ⟨c, hf, hdept, hcont, hncap, hc', hdb2⟩ :=
      updateStatus_ok_inv db user cid "Accepted" resolution now c' hok
    have hcnt : countOtherActive db user.id c.id = 0 := by
      by_contra h
      exact hncap ⟨rfl, Nat.pos_of_ne_zero h⟩
    rw [hdb2]
    unfold providerActive
    rw [countP_update_map]
    by_cases hp : p = user.id
    · have hPc' : ((c'.assignedTo == some p) && activeStatuses.contains c'.status) = true := by
        rw [hc']
        unfold applyTransition
        simp [activeStatuses, hp]
      rw [if_pos hPc']
      have h1 : db.countP (fun x => x.id == c.id) ≤ 1 := countP_id_le_one db hnodup c.id
      have h2 : db.countP (fun x =>
          !(x.id == c.id) && ((x.assignedTo == some p) && activeStatuses.contains x.status)) =
          countOtherActive db user.id c.id := by
        unfold countOtherActive
        apply List.countP_congr
        intro x hx
        rw [hp]
        simp only [Bool.and_eq_true, bne_iff_ne, ne_eq, Bool.not_eq_true, beq_eq_false_iff_ne]
        constructor
        · rintro ⟨hne, ha, hs⟩
          exact ⟨⟨ha, hs⟩, by simpa using hne⟩
        · rintro ⟨⟨ha, hs⟩, hne⟩
          exact ⟨by simpa using hne, ha, hs⟩
      rw [h2, hcnt]
      omega
    · have hPc' : ((c'.assignedTo == some p) && activeStatuses.contains c'.status) = false := by
        rw [hc']
        unfold applyTransition
        simp
        intro hcontra
        exact absurd hcontra.symm hp
      rw [hPc']
      simp only [Bool.false_eq_true, if_false, Nat.zero_add]
      calc db.countP (fun x =>
              !(x.id == c.id) && ((x.assignedTo == some p) && activeStatuses.contains x.status))
          ≤ db.countP (fun x => (x.assignedTo == some p) && activeStatuses.contains x.status) := by
            apply List.countP_mono_left
            intro x hx h
            simp only [Bool.and_eq_true] at h
            exact Bool.and_eq_true _ _ |>.mpr h.2
        _ ≤ 1 := hinv p

theorem firstMinBy_cons (f : α → ℕ) (a : α) (l : List α) :
    firstMinBy f (a :: l) =
      some (frontBest (fun x y => decide (f x ≤ f y)) a l) := by
  induction l generalizing a with
  | nil => rfl
  | cons b t ih =>
    have hstep : firstMinBy f (a :: b :: t) =
        match firstMinBy f (b :: t) with
        | none => some a
        | some m => some (if f a ≤ f m then a else m) := rfl
    rw [hstep, ih b]
    simp only [frontBest]
    by_cases h : f a ≤ f (frontBest (fun x y => decide (f x ≤ f y)) b t) <;> simp [h]

theorem frontBest_map {β : Type _} (g : α → β) (r1 : α → α → Bool) (r2 : β → β → Bool)
    (hr : ∀ x y, r2 (g x) (g y) = r1 x y) (a : α) (l : List α) :
    frontBest r2 (g a) (l.map g) = g (frontBest r1 a l) := by
  induction l generalizing a with
  | nil => rfl
  | cons b t ih =>
    simp only [List.map_cons, frontBest, ih b, hr]
    by_cases h : r1 a (frontBest r1 b t) = true <;> simp [h]

theorem loadRel_total (db : List Complaint) : ∀ x y : UserT,
    decide (activeLoad db x.id ≤ activeLoad db y.id) = true ∨
      decide (activeLoad db y.id ≤ activeLoad db x.id) = true := by
  intro x y
  rcases Nat.le_total (activeLoad db x.id) (activeLoad db y.id) with h | h
  · exact Or.inl (decide_eq_true h)
  · exact Or.inr (decide_eq_true h)

theorem loadRel_trans (db : List Complaint) : ∀ x y z : UserT,
    decide (activeLoad db x.id ≤ activeLoad db y.id) = true →
      decide (activeLoad db y.id ≤ activeLoad db z.id) = true →
      decide (activeLoad db x.id ≤ activeLoad db z.id) = true := by
  intro x y z h1 h2
  exact decide_eq_true (le_trans (of_decide_eq_true h1) (of_decide_eq_true h2))

theorem assignProvider_eq_firstMin (users : List UserT) (db : List Complaint) (dept : String) :
    assignProviderForDepartment users db dept =
      firstMinBy (fun u => activeLoad db u.id)
        (users.filter (fun u => u.role == "provider" && u.department == dept)) := by
  unfold assignProviderForDepartment
  cases hp : users.filter (fun u => u.role == "provider" && u.department == dept) with
  | nil => rfl
  | cons a t =>
    rw [if_neg (by simp)]
    dsimp only
    rw [firstMinBy_cons, List.map_cons]
    have hfm := frontBest_map (fun p : UserT => (p, activeLoad db p.id))
      (fun x y => decide (activeLoad db x.id ≤ activeLoad db y.id))
      (fun x y : UserT × ℕ => decide (x.2 ≤ y.2)) (fun x y => rfl) a t
    have hmin := frontBest_rel (fun x y => decide (activeLoad db x.id ≤ activeLoad db y.id))
      (loadRel_total db) (loadRel_trans db) a t
    cases hs : sortStable (fun x y : UserT × ℕ => decide (x.2 ≤ y.2))
        ((a, activeLoad db a.id) :: t.map (fun p => (p, activeLoad db p.id))) with
    | nil => exact absurd hs (sortStable_ne_nil _ _ _)
    | cons s0 srest =>
      have hhead := head?_sortStable (fun x y : UserT × ℕ => decide (x.2 ≤ y.2))
        (a, activeLoad db a.id) (t.map (fun p => (p, activeLoad db p.id)))
      rw [hs] at hhead
      simp only [List.head?_cons, Option.some.injEq] at hhead
      have hs0 : s0 = (frontBest (fun x y => decide (activeLoad db x.id ≤ activeLoad db y.id))
          a t, activeLoad db (frontBest (fun x y =>
            decide (activeLoad db x.id ≤ activeLoad db y.id)) a t).id) := by
        rw [hhead, hfm]
      by_cases hz : activeLoad db (frontBest (fun x y =>
          decide (activeLoad db x.id ≤ activeLoad db y.id)) a t).id = 0
      · have hfind : List.find? (fun p : UserT × ℕ => p.2 == 0) (s0 :: srest) = some s0 := by
          have hpred : (s0.2 == 0) = true := by
            rw [hs0]
            simpa using hz
          rw [List.find?_cons, hpred]
        rw [hfind]
        dsimp only
        rw [hs0]
      · have hnone : List.find? (fun p : UserT × ℕ => p.2 == 0) (s0 :: srest) = none := by
          rw [List.find?_eq_none]
          intro x hx
          have hxmem : x ∈ (a, activeLoad db a.id) :: t.map (fun p => (p, activeLoad db p.id)) := by
            rw [← mem_sortStable (fun x y : UserT × ℕ => decide (x.2 ≤ y.2)), hs]
            exact hx
          have hex : ∃ u ∈ a :: t, x = (u, activeLoad db u.id) := by
            rcases List.mem_cons.mp hxmem with h | h
            · exact ⟨a, List.mem_cons_self a t, h⟩
            · obtain ⟨u, hu, hux⟩ := List.mem_map.mp h
              exact ⟨u, List.mem_cons_of_mem a hu, hux.symm⟩
          obtain ⟨u, hu, hx2⟩ := hex
          have hle := of_decide_eq_true (hmin u hu)
          rw [hx2]
          simp only [beq_iff_eq]
          intro hu0
          exact hz (Nat.le_antisymm (hu0 ▸ hle) (Nat.zero_le _))
        rw [hnone]
        dsimp only
        rw [hs0]
        rfl

theorem firstMinBy_none_iff (f : α → ℕ) (l : List α) :
    firstMinBy f l = none ↔ l = [] := by
  cases l with
  | nil => simp [firstMinBy]
  | cons a t => simp [firstMinBy_cons]

/-- C6: the dispatch balancer picks exactly the first least-loaded provider
of the requested department (in listing order); it never picks outside the
department, prefers a zero-load provider whenever one exists, returns none
for a department with no providers, and a complaint created in such a
department still succeeds with no assignment. -/
theorem claim_C6_dispatch_balancer (users : List UserT) (db : List Complaint) (dept : String) :
    (assignProviderForDepartment users db dept =
      firstMinBy (fun u => activeLoad db u.id)
        (users.filter (fun u => u.role == "provider" && u.department == dept)))
    ∧ (assignProviderForDepartment users db dept = none ↔
        users.filter (fun u => u.role == "provider" && u.department == dept) = [])
    ∧ (∀ p, assignProviderForDepartment users db dept = some p →
        p ∈ users.filter (fun u => u.role == "provider" && u.department == dept) ∧
        p.role = "provider" ∧ p.department = dept ∧
        (∀ q ∈ users.filter (fun u => u.role == "provider" && u.department == dept),
          activeLoad db p.id ≤ activeLoad db q.id) ∧
        ((∃ q ∈ users.filter (fun u => u.role == "provider" && u.department == dept),
            activeLoad db q.id = 0) → activeLoad db p.id = 0))
    ∧ (users.filter (fun u => u.role == "provider" && u.department == dept) = [] →
        ∀ (user : UserT) (ph desc : String) (area? address? : Option String)
          (dupCheck : DupResult)
          (priority ticketId : String) (now newId : ℕ), dupCheck.isFake = false →
          ∃ c, createComplaint user (some ph) (some desc) area? address? dept dupCheck priority
            ticketId
            (fun d => assignProviderForDepartment users db d) now newId = .ok c ∧
            c.assignedTo = none) := by
  have hmain := assignProvider_eq_firstMin users db dept
  refine ⟨hmain, ?_, ?_, ?_⟩
  · rw [hmain]
    exact firstMinBy_none_iff _ _
  · intro p hp
    rw [hmain] at hp
    cases hl : users.filter (fun u => u.role == "provider" && u.department == dept) with
    | nil =>
      rw [hl] at hp
      simp [firstMinBy] at hp
    | cons a t =>
      rw [hl, firstMinBy_cons] at hp
      have hpf : frontBest (fun x y =>
          decide (activeLoad db x.id ≤ activeLoad db y.id)) a t = p := by
        simpa using hp
      have hmem : p ∈ a :: t := hpf ▸ frontBest_mem _ a t
      have hmem2 : p ∈ users.filter (fun u => u.role == "provider" && u.department == dept) := by
        rw [hl]
        exact hmem
      have hfilt := (List.mem_filter.mp hmem2).2
      simp only [Bool.and_eq_true, beq_iff_eq] at hfilt
      have hmin : ∀ q ∈ a :: t, activeLoad db p.id ≤ activeLoad db q.id := by
        intro q hq
        have hrel := frontBest_rel (fun x y => decide (activeLoad db x.id ≤ activeLoad db y.id))
          (loadRel_total db) (loadRel_trans db) a t q hq
        rw [hpf] at hrel
        exact of_decide_eq_true hrel
      refine ⟨hmem, hfilt.1, hfilt.2, hmin, ?_⟩
      rintro ⟨q, hq, hq0⟩
      exact Nat.le_antisymm (hq0 ▸ hmin q hq) (Nat.zero_le _)
  · intro hempty user ph desc area? address? dupCheck priority ticketId now newId hnf
    have hnone : assignProviderForDepartment users db dept = none := by
      rw [hmain, hempty]
      rfl
    unfold createComplaint
    by_cases hdup : dupCheck.isDuplicate = true <;>
      simp [hnf, hdup, hnone]

/-- Witness for C6: in a two-provider department where the first provider is
busy, the balancer picks the idle second provider; and with zero providers
the creation still succeeds unassigned. -/
theorem claim_C6_dispatch_balancer_witness :
    (assignProviderForDepartment
      [⟨10, "Priya", "p@x", "provider", "Electricity"⟩,
       ⟨11, "Ravi", "r@x", "provider", "Electricity"⟩]
      [exComplaintB] "Electricity" = some ⟨11, "Ravi", "r@x", "provider", "Electricity"⟩) ∧
    activeLoad [exComplaintB]
      (11 : ℕ) = 0 ∧
    ((createdDoc (createComplaint exCitizen (some "img") (some "power cut in street")
        (some "Chennai") none "Water Resources" exCleanVerdict "High" "TKT-6"
        (fun d => assignProviderForDepartment
          [⟨10, "Priya", "p@x", "provider", "Electricity"⟩] [] d) 7 4)).map
      Complaint.assignedTo = some none) := by
  have h := claim_C6_dispatch_balancer
    [⟨10, "Priya", "p@x", "provider", "Electricity"⟩,
     ⟨11, "Ravi", "r@x", "provider", "Electricity"⟩] [exComplaintB] "Electricity"
  have h2 := claim_C6_dispatch_balancer
    [⟨10, "Priya", "p@x", "provider", "Electricity"⟩] [] "Water Resources"
  refine ⟨?_, by decide, ?_⟩
  · rw [h.1]
    decide
  · obtain ⟨c, hc, hass⟩ := h2.2.2.2 (by decide) exCitizen "img" "power cut in street"
      (some "Chennai") none exCleanVerdict "High" "TKT-6" 7 4 rfl
    rw [hc]
    simp [createdDoc, hass]

theorem tryAttempts_trace_model (oracle : ℕ → ℕ → CallOutcome) (now m : ℕ) :
    ∀ left a, ∀ q ∈ (tryAttempts oracle now m a left).2, q.1 = m := by
  intro left
  induction left with
  | zero => intro a q hq; simp [tryAttempts] at hq
  | succ n ih =>
    intro a q hq
    unfold tryAttempts at hq
    rcases ho : oracle m a with t | st <;> rw [ho] at hq
    · simp at hq
      rw [hq]
    · dsimp only at hq
      split_ifs at hq with h1 h2
      · simp at hq
        rw [hq]
      · simp at hq
        rw [hq]
      · rcases List.mem_cons.mp hq with h | h
        · rw [h]
        · exact ih (a + 1) q h

theorem tryAttempts_allerr (oracle : ℕ → ℕ → CallOutcome) (now m : ℕ)
    (hall : ∀ a, ∃ st, oracle m a = .err st) :
    ∀ left a, (tryAttempts oracle now m a left).1 = .nextModel ∨
      ∃ cd, (tryAttempts oracle now m a left).1 = .finished none cd := by
  intro left
  induction left with
  | zero => intro a; exact Or.inl rfl
  | succ n ih =>
    intro a
    obtain ⟨st, hst⟩ := hall a
    unfold tryAttempts
    rw [hst]
    dsimp only
    split_ifs with h1 h2
    · exact Or.inr ⟨now + cloudCooldownMs, rfl⟩
    · exact Or.inl rfl
    · exact ih (a + 1)

theorem tryAttempts_trace_head (oracle : ℕ → ℕ → CallOutcome) (now m a left : ℕ) :
    ∃ tr, (tryAttempts oracle now m a (left + 1)).2 = (m, a) :: tr := by
  unfold tryAttempts
  rcases ho : oracle m a with t | st
  · exact ⟨[], rfl⟩
  · dsimp only
    split_ifs with h1 h2
    · exact ⟨[], rfl⟩
    · exact ⟨[], rfl⟩
    · exact ⟨(tryAttempts oracle now m (a + 1) left).2, rfl⟩

theorem modelsLoop_trace_models (oracle : ℕ → ℕ → CallOutcome) (now d : ℕ) :
    ∀ ms, ∀ q ∈ (modelsLoop oracle now d ms).2.2, q.1 ∈ ms := by
  intro ms
  induction ms with
  | nil => intro q hq; simp [modelsLoop] at hq
  | cons m rest ih =>
    intro q hq
    unfold modelsLoop at hq
    rcases ht : tryAttempts oracle now m 0 (maxRetries + 1) with ⟨step, tr⟩
    rw [ht] at hq
    cases step with
    | finished r cd =>
      dsimp only at hq
      have : q.1 = m := tryAttempts_trace_model oracle now m (maxRetries + 1) 0 q (ht ▸ hq)
      rw [this]
      exact List.mem_cons_self m rest
    | nextModel =>
      dsimp only at hq
      rcases List.mem_append.mp hq with h | h
      · have : q.1 = m := tryAttempts_trace_model oracle now m (maxRetries + 1) 0 q (ht ▸ h)
        rw [this]
        exact List.mem_cons_self m rest
      · exact List.mem_cons_of_mem m (ih q h)

theorem tryAttempts_err_other (oracle : ℕ → ℕ → CallOutcome) (now m a left st : ℕ)
    (ho : oracle m a = .err st) (h1 : st ≠ 401) (h2 : st ≠ 403) (h3 : st ≠ 429) :
    tryAttempts oracle now m a (left + 1) =
      ((tryAttempts oracle now m (a + 1) left).1,
        (m, a) :: (tryAttempts oracle now m (a + 1) left).2) := by
  have hdef : tryAttempts oracle now m a (left + 1) =
      match oracle m a with
      | .ok t => (.finished (normalizeResp t) 0, [(m, a)])
      | .err s2 =>
        if s2 = 401 ∨ s2 = 403 then (.finished none (now + cloudCooldownMs), [(m, a)])
        else if s2 = 429 then (.nextModel, [(m, a)])
        else ((tryAttempts oracle now m (a + 1) left).1,
          (m, a) :: (tryAttempts oracle now m (a + 1) left).2) := rfl
  rw [hdef, ho]
  dsimp only
  rw [if_neg (by simp [h1, h2]), if_neg h3]

/-- C9: the classifier gateway never propagates a failure (an all-error
oracle yields none); during the cooldown window every call returns none
immediately with no network attempt; a 401/403 on the first request returns
none, sets a five-minute cooldown and makes no further attempt; a 429 on the
first model moves directly to the second model, never retrying the first; any
other error is retried once on the same model; and a successful call returns
the trimmed text and resets the cooldown. -/
theorem claim_C9_gateway_policy (now disabledUntil : ℕ) :
    (∀ oracle, now < disabledUntil →
      callAI oracle now disabledUntil = (none, disabledUntil, []))
    ∧ (∀ oracle, (∀ m a, ∃ st, oracle m a = .err st) →
        (callAI oracle now disabledUntil).1 = none)
    ∧ (∀ oracle st, ¬ now < disabledUntil → (st = 401 ∨ st = 403) →
        oracle 0 0 = .err st →
        callAI oracle now disabledUntil = (none, now + cloudCooldownMs, [(0, 0)]))
    ∧ (∀ oracle, ¬ now < disabledUntil → oracle 0 0 = .err 429 →
        ∃ tr, (callAI oracle now disabledUntil).2.2 = (0, 0) :: tr ∧ ∀ q ∈ tr, q.1 = 1)
    ∧ (∀ oracle st, ¬ now < disabledUntil → oracle 0 0 = .err st →
        st ≠ 401 → st ≠ 403 → st ≠ 429 →
        ∃ tr, (callAI oracle now disabledUntil).2.2 = (0, 0) :: (0, 1) :: tr)
    ∧ (∀ oracle s, ¬ now < disabledUntil → oracle 0 0 = .ok (some s) → jsTrim s ≠ "" →
        callAI oracle now disabledUntil = (some (jsTrim s), 0, [(0, 0)])) := by
  refine ⟨?_, ?_, ?_, ?_, ?_, ?_⟩
  · intro oracle hcool
    unfold callAI
    rw [if_pos hcool]
  · intro oracle hall
    unfold callAI
    split_ifs with hcool
    · rfl
    · unfold modelsLoop
      rcases tryAttempts_allerr oracle now 0 (hall 0) (maxRetries + 1) 0 with h0 | ⟨cd0, h0⟩
      · rcases ht0 : tryAttempts oracle now 0 0 (maxRetries + 1) with ⟨step0, tr0⟩
        rw [ht0] at h0
        dsimp only at h0
        subst h0
        dsimp only
        rcases tryAttempts_allerr oracle now 1 (hall 1) (maxRetries + 1) 0 with h1 | ⟨cd1, h1⟩
        · rcases ht1 : tryAttempts oracle now 1 0 (maxRetries + 1) with ⟨step1, tr1⟩
          rw [ht1] at h1
          dsimp only at h1
          subst h1
          unfold modelsLoop
          rw [ht1]
          rfl
        · rcases ht1 : tryAttempts oracle now 1 0 (maxRetries + 1) with ⟨step1, tr1⟩
          rw [ht1] at h1
          dsimp only at h1
          subst h1
          unfold modelsLoop
          rw [ht1]
      · rcases ht0 : tryAttempts oracle now 0 0 (maxRetries + 1) with ⟨step0, tr0⟩
        rw [ht0] at h0
        dsimp only at h0
        subst h0
        rfl
  · intro oracle st hcool hst ho
    unfold callAI
    rw [if_neg hcool]
    unfold modelsLoop
    have ht : tryAttempts oracle now 0 0 (maxRetries + 1) =
        (.finished none (now + cloudCooldownMs), [(0, 0)]) := by
      unfold tryAttempts
      rw [ho]
      dsimp only
      rw [if_pos hst]
    rw [ht]
  · intro oracle hcool ho
    unfold callAI
    rw [if_neg hcool]
    unfold modelsLoop
    have ht : tryAttempts oracle now 0 0 (maxRetries + 1) = (.nextModel, [(0, 0)]) := by
      unfold tryAttempts
      rw [ho]
      dsimp only
      rw [if_neg (by simp), if_pos rfl]
    rw [ht]
    dsimp only
    refine ⟨(modelsLoop oracle now disabledUntil [1]).2.2, rfl, ?_⟩
    intro q hq
    have := modelsLoop_trace_models oracle now disabledUntil [1] q hq
    simpa using this
  · intro oracle st hcool ho h401 h403 h429
    unfold callAI
    rw [if_neg hcool]
    unfold modelsLoop
    have hrec := tryAttempts_err_other oracle now 0 0 maxRetries st ho h401 h403 h429
    simp only [Nat.zero_add] at hrec
    obtain ⟨tr1, htr1⟩ : ∃ tr, (tryAttempts oracle now 0 1 maxRetries).2 = (0, 1) :: tr := by
      have hmr : maxRetries = 0 + 1 := rfl
      rw [hmr]
      exact tryAttempts_trace_head oracle now 0 1 0
    rcases hstep : (tryAttempts oracle now 0 1 maxRetries).1 with ⟨r, cd⟩ | _
    · rw [hrec, hstep, htr1]
      exact ⟨tr1, rfl⟩
    · rw [hrec, hstep, htr1]
      dsimp only
      exact ⟨tr1 ++ (modelsLoop oracle now disabledUntil [1]).2.2, by simp⟩
  · intro oracle s hcool ho hne
    unfold callAI
    rw [if_neg hcool]
    unfold modelsLoop
    have ht : tryAttempts oracle now 0 0 (maxRetries + 1) =
        (.finished (some (jsTrim s)) 0, [(0, 0)]) := by
      unfold tryAttempts
      rw [ho]
      dsimp only
      unfold normalizeResp
      dsimp only
      rw [if_neg hne]
    rw [ht]

/-- Witness for C9: the cooldown skip, the auth-failure cooldown, the
all-errors degradation to none, the 429 model switch, the single retry on a
server error, and the success reset, each at a concrete oracle. -/
theorem claim_C9_gateway_policy_witness :
    callAI (fun _ _ => .err 401) 50 100 = (none, 100, []) ∧
    callAI (fun _ _ => .err 401) 100 0 = (none, 100 + cloudCooldownMs, [(0, 0)]) ∧
    (callAI (fun _ _ => .err 500) 100 0).1 = none ∧
    (callAI (fun m _ => if m = 0 then .err 429 else .err 500) 100 0).2.2.head? =
      some (0, 0) ∧
    ((callAI (fun m _ => if m = 0 then .err 429 else .err 500) 100 0).2.2.tail.all
      (fun q => q.1 == 1)) = true ∧
    (callAI (fun _ a => if a = 0 then .err 503 else .ok (some "ok")) 100 0).2.2.take 2 =
      [(0, 0), (0, 1)] ∧
    callAI (fun _ _ => .ok (some " hi ")) 100 0 = (some (jsTrim " hi "), 0, [(0, 0)]) := by
  have h1 := claim_C9_gateway_policy 50 100
  have h2 := claim_C9_gateway_policy 100 0
  obtain ⟨t429, ht429, hall429⟩ := h2.2.2.2.1 (fun m _ => if m = 0 then .err 429 else .err 500)
    (by decide) rfl
  obtain ⟨t503, ht503⟩ := h2.2.2.2.2.1 (fun _ a => if a = 0 then .err 503 else .ok (some "ok"))
    503 (by decide) rfl (by decide) (by decide) (by decide)
  refine ⟨h1.1 (fun _ _ => .err 401) (by decide),
    h2.2.2.1 (fun _ _ => .err 401) 401 (by decide) (Or.inl rfl) rfl,
    h2.2.1 (fun _ _ => .err 500) (fun m a => ⟨500, rfl⟩), ?_, ?_, ?_,
    h2.2.2.2.2.2 (fun _ _ => .ok (some " hi ")) " hi " (by decide) rfl (by decide)⟩
  · rw [ht429]
    rfl
  · rw [ht429]
    simp only [List.tail_cons, List.all_eq_true]
    intro q hq
    simp [hall429 q hq]
  · rw [ht503]
    rfl

theorem firstMaxBy_cons (f : α → ℚ) (a : α) (l : List α) :
    firstMaxBy f (a :: l) =
      some (frontBest (fun x y => decide (f y ≤ f x)) a l) := by
  induction l generalizing a with
  | nil => rfl
  | cons b t ih =>
    have hstep : firstMaxBy f (a :: b :: t) =
        match firstMaxBy f (b :: t) with
        | none => some a
        | some m => some (if f m ≤ f a then a else m) := rfl
    rw [hstep, ih b]
    simp only [frontBest]
    by_cases h : f (frontBest (fun x y => decide (f y ≤ f x)) b t) ≤ f a <;> simp [h]

theorem scoreRel_total : ∀ x y : String × ℚ,
    decide (y.2 ≤ x.2) = true ∨ decide (x.2 ≤ y.2) = true := by
  intro x y
  rcases le_total y.2 x.2 with h | h
  · exact Or.inl (decide_eq_true h)
  · exact Or.inr (decide_eq_true h)

theorem scoreRel_trans : ∀ x y z : String × ℚ,
    decide (y.2 ≤ x.2) = true → decide (z.2 ≤ y.2) = true →
      decide (z.2 ≤ x.2) = true := by
  intro x y z h1 h2
  exact decide_eq_true (le_trans (of_decide_eq_true h2) (of_decide_eq_true h1))

theorem positiveSorted_eq_nil_iff (scores : List (String × ℚ)) :
    positiveSorted scores = [] ↔ ∀ x ∈ scores, x.2 ≤ 0 := by
  unfold positiveSorted
  rw [List.filter_eq_nil]
  constructor
  · intro h x hx
    have := h x ((mem_sortStable _ scores x).mpr hx)
    simpa using this
  · intro h x hx
    have := h x ((mem_sortStable _ scores x).mp hx)
    simpa using this

theorem positiveSorted_cons_top (a : String × ℚ) (l : List (String × ℚ))
    (hpos : 0 < (frontBest (fun x y : String × ℚ => decide (y.2 ≤ x.2)) a l).2) :
    ∃ rest, positiveSorted (a :: l) =
      frontBest (fun x y : String × ℚ => decide (y.2 ≤ x.2)) a l :: rest := by
  unfold positiveSorted
  cases hs : sortStable (fun x y : String × ℚ => decide (y.2 ≤ x.2)) (a :: l) with
  | nil => exact absurd hs (sortStable_ne_nil _ _ _)
  | cons h t =>
    have hhead := head?_sortStable (fun x y : String × ℚ => decide (y.2 ≤ x.2)) a l
    rw [hs] at hhead
    simp only [List.head?_cons, Option.some.injEq] at hhead
    rw [List.filter_cons, hhead]
    rw [if_pos (by simpa using hpos)]
    exact ⟨List.filter (fun p => decide (0 < p.2)) t, rfl⟩

theorem positiveSorted_sum (scores : List (String × ℚ)) :
    ((positiveSorted scores).map (fun p => p.2)).sum = positiveScoreSum scores := by
  unfold positiveSorted positiveScoreSum
  exact List.Perm.sum_eq (List.Perm.map _ (List.Perm.filter _ (sortStable_perm _ scores)))

theorem sum_nonneg_of_mem (l : List (String × ℚ)) (h : ∀ x ∈ l, 0 ≤ x.2) :
    0 ≤ (l.map (fun p => p.2)).sum := by
  induction l with
  | nil => simp
  | cons a t ih =>
    simp only [List.map_cons, List.sum_cons]
    have ha := h a (List.mem_cons_self a t)
    have ht := ih (fun x hx => h x (List.mem_cons_of_mem a hx))
    linarith

/-- C8: a valid case-insensitive direct department guess from the vision
fallback model short-circuits scoring with fixed confidence 85; with no
direct guess and no positive score the result is General with confidence 0
and the explanatory reason; otherwise the first department in enumeration
order reaching the maximum score wins and the confidence equals
round(topScore / sum of positive scores x 100) capped at 99. -/
theorem claim_C8_department_mapping (vr : VisionResults) :
    (∀ dd m, vr.source = "openrouter-vision" → vr.directDepartment = some dd →
      validDepartments.find? (fun d => jsLower d == jsLower dd) = some m →
      (mapToDepartment vr).department = m ∧ (mapToDepartment vr).confidence = 85 ∧
        m ∈ validDepartments)
    ∧ (directMatch vr = none → (∀ x ∈ deptScores vr, x.2 ≤ 0) →
        mapToDepartment vr = ⟨"General", 0, (vr.labels.take 8).map (fun l => l.term),
          "Could not match image to a specific department"⟩)
    ∧ (directMatch vr = none →
        ∀ top, firstMaxBy (fun x : String × ℚ => x.2) (deptScores vr) = some top →
        0 < top.2 →
        (mapToDepartment vr).department = top.1 ∧
        (mapToDepartment vr).confidence =
          min (jsRound (top.2 / positiveScoreSum (deptScores vr) * 100)) 99 ∧
        (mapToDepartment vr).confidence ≤ 99) := by
  refine ⟨?_, ?_, ?_⟩
  · intro dd m hsrc hdir hfind
    have hdm : directMatch vr = some m := by
      unfold directMatch
      rw [hdir]
      dsimp only
      rw [if_pos hsrc, hfind]
    unfold mapToDepartment
    rw [hdm]
    exact ⟨rfl, rfl, List.mem_of_find?_eq_some hfind⟩
  · intro hdm hall
    unfold mapToDepartment
    rw [hdm]
    dsimp only
    rw [(positiveSorted_eq_nil_iff (deptScores vr)).mpr hall]
  · intro hdm top htop hpos
    cases hds : deptScores vr with
    | nil =>
      rw [hds] at htop
      simp [firstMaxBy] at htop
    | cons a l =>
      rw [hds, firstMaxBy_cons] at htop
      have htopfb : frontBest (fun x y : String × ℚ => decide (y.2 ≤ x.2)) a l = top := by
        simpa using htop
      obtain ⟨rest, hps⟩ := positiveSorted_cons_top a l (htopfb ▸ hpos)
      rw [htopfb] at hps
      have hmem_pos : ∀ x ∈ positiveSorted (a :: l), 0 < x.2 := by
        intro x hx
        unfold positiveSorted at hx
        have := List.of_mem_filter hx
        simpa using this
      have hsum : ((positiveSorted (a :: l)).map (fun p => p.2)).sum =
          positiveScoreSum (a :: l) := positiveSorted_sum (a :: l)
      have htotal_pos : 0 < ((top :: rest).map (fun p => p.2)).sum := by
        rw [← hps]
        rw [hps]
        simp only [List.map_cons, List.sum_cons]
        have hrest : 0 ≤ (rest.map (fun p => p.2)).sum := by
          apply sum_nonneg_of_mem
          intro x hx
          have : x ∈ positiveSorted (a :: l) := by
            rw [hps]
            exact List.mem_cons_of_mem top hx
          exact le_of_lt (hmem_pos x this)
        linarith
      unfold mapToDepartment
      rw [hdm]
      dsimp only
      rw [hds, hps]
      dsimp only
      rw [if_pos htotal_pos]
      refine ⟨rfl, ?_, ?_⟩
      · have hts : ((top :: rest).map (fun p => p.2)).sum = positiveScoreSum (a :: l) := by
          rw [← hps]
          exact hsum
        rw [hts]
      · exact min_le_right _ _

attribute [local semireducible] Rat.mul Rat.inv Rat.add Rat.sub in
/-- Witness for C8: a validated direct guess accepted with confidence 85, an
evidence-free image mapped to General with confidence 0, and a single
pothole label mapped to Roads and Highways with confidence 99. -/
theorem claim_C8_department_mapping_witness :
    (mapToDepartment ⟨[⟨"x", 1⟩], [], [], "", "openrouter-vision",
        some "roads & highways", some "looks like a road"⟩).department =
      "Roads & Highways" ∧
    (mapToDepartment ⟨[⟨"x", 1⟩], [], [], "", "openrouter-vision",
        some "roads & highways", some "looks like a road"⟩).confidence = 85 ∧
    mapToDepartment ⟨[], [], [], "", "none", none, none⟩ =
      ⟨"General", 0, [], "Could not match image to a specific department"⟩ ∧
    (mapToDepartment ⟨[⟨"pothole", 1⟩], [], [], "", "google-vision",
        none, none⟩).department = "Roads & Highways" ∧
    (mapToDepartment ⟨[⟨"pothole", 1⟩], [], [], "", "google-vision",
        none, none⟩).confidence = 99 := by
  have ha := (claim_C8_department_mapping ⟨[⟨"x", 1⟩], [], [], "", "openrouter-vision",
    some "roads & highways", some "looks like a road"⟩).1 "roads & highways"
    "Roads & Highways" rfl rfl (by decide)
  have hb := (claim_C8_department_mapping ⟨[], [], [], "", "none", none, none⟩).2.1 rfl
    (by decide)
  have hc := (claim_C8_department_mapping ⟨[⟨"pothole", 1⟩], [], [], "", "google-vision",
    none, none⟩).2.2 rfl ("Roads & Highways", 6 / 5) (by decide) (by decide)
  refine ⟨ha.1, ha.2.1, hb, hc.1, ?_⟩
  rw [hc.2.1]
  decide

/-- C5: a duplicate-but-not-fake submission is still persisted, created
directly in Rejected with no provider assignment — the result does not depend
on the dispatch balancer at all — and its single initial status event is a
System-authored Rejected event; a non-duplicate submission is created in
Registered with a System-authored Registered event. -/
theorem claim_C5_duplicate_creation (user : UserT) (ph desc : String)
    (area? address? : Option String)
    (department : String) (dupCheck : DupResult) (priority ticketId : String)
    (balancer : String → Option UserT) (now newId : ℕ)
    (hnf : dupCheck.isFake = false) :
    (dupCheck.isDuplicate = true →
      (∀ b2 : String → Option UserT,
        createComplaint user (some ph) (some desc) area? address? department dupCheck priority ticketId
            balancer now newId =
          createComplaint user (some ph) (some desc) area? address? department dupCheck priority ticketId
            b2 now newId)
      ∧ ∃ c, createComplaint user (some ph) (some desc) area? address? department dupCheck priority
          ticketId balancer now newId = .ok c ∧
          c.status = "Rejected" ∧ c.assignedTo = none ∧ c.assignedToName = none ∧
          c.statusHistory = [⟨"Rejected", now, none, "System",
            "Flagged as duplicate of " ++ (dupCheck.duplicateOf.getD "null")⟩])
    ∧ (dupCheck.isDuplicate = false →
        ∃ c, createComplaint user (some ph) (some desc) area? address? department dupCheck priority
          ticketId balancer now newId = .ok c ∧
          c.status = "Registered" ∧
          c.statusHistory = [⟨"Registered", now, none, "System",
            "Complaint registered successfully"⟩]) := by
  constructor
  · intro hdup
    constructor
    · intro b2
      unfold createComplaint
      simp [hnf, hdup]
    · unfold createComplaint
      simp only [hnf, hdup, Bool.false_eq_true, if_false, if_true]
      exact ⟨_, rfl, rfl, rfl, rfl, rfl⟩
  · intro hdup
    unfold createComplaint
    simp only [hnf, hdup, Bool.false_eq_true, if_false]
    exact ⟨_, rfl, rfl, rfl⟩

/-- Witness for C5 at a concrete duplicate verdict: the balancer is ignored,
and the stored document is Rejected, unassigned, with the single System
Rejected event; and at a clean verdict the document is Registered. -/
theorem claim_C5_duplicate_creation_witness :
    createComplaint exCitizen (some "img") (some "water leak near park") (some "Chennai") none
        "Water Resources" exDupVerdict "Medium" "TKT-1" (fun _ => some exProvider) 7 3 =
      createComplaint exCitizen (some "img") (some "water leak near park") (some "Chennai") none
        "Water Resources" exDupVerdict "Medium" "TKT-1" (fun _ => none) 7 3 ∧
    ((createdDoc (createComplaint exCitizen (some "img") (some "water leak near park")
        (some "Chennai") none
 "Water Resources" exDupVerdict "Medium" "TKT-1"
        (fun _ => some exProvider) 7 3)).map Complaint.status = some "Rejected") ∧
    ((createdDoc (createComplaint exCitizen (some "img") (some "water leak near park")
        (some "Chennai") none
 "Water Resources" exDupVerdict "Medium" "TKT-1"
        (fun _ => some exProvider) 7 3)).map Complaint.assignedTo = some none) ∧
    ((createdDoc (createComplaint exCitizen (some "img") (some "water leak near park")
        (some "Chennai") none
 "Water Resources" exCleanVerdict "Medium" "TKT-2"
        (fun _ => none) 7 3)).map Complaint.status = some "Registered") := by
  have h := claim_C5_duplicate_creation exCitizen "img" "water leak near park" (some "Chennai") none
    "Water Resources" exDupVerdict "Medium" "TKT-1" (fun _ => some exProvider) 7 3 rfl
  have h2 := claim_C5_duplicate_creation exCitizen "img" "water leak near park" (some "Chennai") none
    "Water Resources" exCleanVerdict "Medium" "TKT-2" (fun _ => none) 7 3 rfl
  obtain ⟨hind, c, hc, hst, hass, _, _⟩ := h.1 rfl
  obtain ⟨c2, hc2, hst2, _⟩ := h2.2 rfl
  refine ⟨hind (fun _ => none), ?_, ?_, ?_⟩
  · rw [hc]
    simp [createdDoc, hst]
  · rw [hc]
    simp [createdDoc, hass]
  · rw [hc2]
    simp [createdDoc, hst2]

/-- C10: the creation route rejects a fake verdict with an HTTP 400 carrying
the remarks before any document is built; every document it does persist has
isFake = false; and the status-update and rating routes preserve the
all-documents-not-fake invariant — no stored complaint ever carries
isFake = true. -/
theorem claim_C10_no_fake_persisted (user : UserT) (area? address? : Option String)
    (department : String) (dupCheck : DupResult) (priority ticketId : String)
    (balancer : String → Option UserT) (now newId : ℕ) :
    (∀ ph desc, dupCheck.isFake = true →
      createComplaint user (some ph) (some desc) area? address? department dupCheck priority ticketId
          balancer now newId =
        .err 400 ("This complaint appears to be invalid or fake. AI Remarks: " ++
          dupCheck.remarks))
    ∧ (∀ photo description c,
        createComplaint user photo description area? address? department dupCheck priority ticketId
          balancer now newId = .ok c → c.isFake = false)
    ∧ (∀ (db : List Complaint) (u2 : UserT) (cid : ℕ) (target : String)
        (res : Option String) (n2 : ℕ), (∀ x ∈ db, x.isFake = false) →
        ∀ x ∈ (updateStatus db u2 cid target res n2).2, x.isFake = false)
    ∧ (∀ (db : List Complaint) (u2 : UserT) (cid rating : ℕ) (fb : Option String),
        (∀ x ∈ db, x.isFake = false) →
        ∀ x ∈ (rateComplaint db u2 cid rating fb).2, x.isFake = false) := by
  refine ⟨?_, ?_, ?_, ?_⟩
  · intro ph desc hfake
    unfold createComplaint
    simp [hfake]
  · intro photo description c hok
    unfold createComplaint at hok
    rcases photo with _ | ph
    · simp at hok
    · rcases description with _ | desc
      · simp at hok
      · dsimp only at hok
        by_cases hfake : dupCheck.isFake = true
        · rw [if_pos hfake] at hok
          simp at hok
        · rw [if_neg hfake] at hok
          have hc : _ = c := (RouteResult.ok.injEq _ _).mp hok
          rw [← hc]
  · intro db u2 cid target res n2 hall x hx
    cases hres : (updateStatus db u2 cid target res n2).1 with
    | err code msg =>
      rw [updateStatus_err_unchanged db u2 cid target res n2 code msg hres] at hx
      exact hall x hx
    | ok c' =>
      obtain ⟨c, hf, _, _, _, hc', hdb2⟩ := updateStatus_ok_inv db u2 cid target res n2 c' hres
      rw [hdb2] at hx
      obtain ⟨y, hy, hxy⟩ := List.mem_map.mp hx
      by_cases hid : (y.id == c.id) = true
      · have hxc : x = c' := by rw [← hxy, if_pos hid]
        rw [hxc, hc']
        have hfc : (applyTransition c u2 target res n2).isFake = c.isFake := rfl
        rw [hfc]
        exact hall c (List.mem_of_find?_eq_some hf)
      · have hxy2 : x = y := by rw [← hxy, if_neg hid]
        rw [hxy2]
        exact hall y hy
  · intro db u2 cid rating fb hall x hx
    unfold rateComplaint at hx
    by_cases h0 : rating < 1 ∨ 5 < rating
    · rw [if_pos h0] at hx
      exact hall x hx
    · rw [if_neg h0] at hx
      rcases hf : db.find? (fun c => c.id == cid) with _ | c <;> rw [hf] at hx
      · exact hall x hx
      · dsimp only at hx
        by_cases h1 : c.userId ≠ u2.id
        · rw [if_pos h1] at hx
          exact hall x hx
        · rw [if_neg h1] at hx
          by_cases h2 : c.status ≠ "Completed"
          · rw [if_pos h2] at hx
            exact hall x hx
          · rw [if_neg h2] at hx
            by_cases h3 : c.rating.isSome = true
            · rw [if_pos h3] at hx
              exact hall x hx
            · rw [if_neg h3] at hx
              obtain ⟨y, hy, hxy⟩ := List.mem_map.mp hx
              by_cases hid : (y.id == c.id) = true
              · have hxc : x = { c with rating := some rating, feedback := some (fb.getD "") } := by
                  rw [← hxy, if_pos hid]
                rw [hxc]
                exact hall c (List.mem_of_find?_eq_some hf)
              · have hxy2 : x = y := by rw [← hxy, if_neg hid]
                rw [hxy2]
                exact hall y hy

/-- Witness for C10: a concrete fake submission rejected with the remark in
the message, a concrete persisted document with isFake = false, and the
not-fake invariant preserved across a concrete accepted transition. -/
theorem claim_C10_no_fake_persisted_witness :
    createComplaint exCitizen (some "img") (some "x") (some "Chennai") none "Electricity"
        exFakeVerdict "Medium" "TKT-3" (fun _ => none) 7 3 =
      .err 400 ("This complaint appears to be invalid or fake. AI Remarks: " ++
        "Description too short to be a valid complaint") ∧
    ((createdDoc (createComplaint exCitizen (some "img") (some "ok text") (some "Chennai")
        none "Electricity" exCleanVerdict "Medium" "TKT-4" (fun _ => none) 7 3)).map
      Complaint.isFake = some false) ∧
    ((updateStatus [exComplaintA] exProvider 1 "Accepted" none 3).2.all
      (fun x => !x.isFake) = true) := by
  have h := claim_C10_no_fake_persisted exCitizen (some "Chennai") none "Electricity"
    exFakeVerdict "Medium" "TKT-3" (fun _ => none) 7 3
  have h2 := claim_C10_no_fake_persisted exCitizen (some "Chennai") none "Electricity"
    exCleanVerdict "Medium" "TKT-4" (fun _ => none) 7 3
  have h3 := claim_C10_no_fake_persisted exCitizen (some "Chennai") none "Electricity"
    exCleanVerdict "Medium" "TKT-4" (fun _ => none) 7 3
  refine ⟨h.1 "img" "x" rfl, ?_, ?_⟩
  · cases hres : createComplaint exCitizen (some "img") (some "ok text") (some "Chennai")
        none "Electricity" exCleanVerdict "Medium" "TKT-4" (fun _ => none) 7 3 with
    | err code msg =>
      exact absurd hres (by unfold createComplaint; simp [exCleanVerdict])
    | ok c =>
      have := h2.2.1 (some "img") (some "ok text") c hres
      simp [createdDoc, this]
  · rw [List.all_eq_true]
    intro x hx
    have := h3.2.2.1 [exComplaintA] exProvider 1 "Accepted" none 3
      (by intro y hy; simp at hy; rw [hy]; rfl) x hx
    simp [this]

/-- Witness for C2: a concrete second Accept refused with the capacity
message while the store is unchanged, and a concrete successful Accept after
which the acting provider holds exactly one active complaint. -/
theorem claim_C2_capacity_invariant_witness :
    updateStatus [exComplaintA, exComplaintB] exProvider 1 "Accepted" none 5 =
      (.err 400 capacityErrorMsg, [exComplaintA, exComplaintB]) ∧
    providerActive (updateStatus [exComplaintA] exProvider 1 "Accepted" none 3).2 10 ≤ 1 := by
  have h1 := claim_C2_capacity_invariant [exComplaintA, exComplaintB] exProvider 1 none 5
  have h2 := claim_C2_capacity_invariant [exComplaintA] exProvider 1 none 3
  constructor
  · exact h1.1 exComplaintA rfl rfl (by decide) (by decide)
  · exact h2.2 (by decide)
      (fun p => List.countP_le_length _)
      (applyTransition exComplaintA exProvider "Accepted" none 3) (by decide) 10

end Blaze
